import Mathlib

/-!
Verification of the Mach-O load-command / segment / section decoding core of the
goblin library (src/mach/load_command.rs and src/mach/segment.rs), as a shallow
embedding: byte buffers are `List Nat` (one element per byte), machine integers
are `Nat` with explicit `% 2^32` / `% 2^64` where the Rust code casts or can
wrap, and every fallible Rust path returns `Option` / `Except`.
-/

namespace Goblin

/-- Byte order (scroll::Endian). -/
inductive Endian where
  | little
  | big
deriving DecidableEq

/-- Little-endian value of `n` bytes of `bytes` starting at `off`
(missing bytes read as 0; only used beneath an in-bounds guard). -/
def leVal (bytes : List Nat) (off : Nat) : Nat → Nat
  | 0 => 0
  | n + 1 => bytes.getD off 0 + 256 * leVal bytes (off + 1) n

/-- Big-endian value of `n` bytes of `bytes` starting at `off`. -/
def beVal (bytes : List Nat) (off : Nat) : Nat → Nat
  | 0 => 0
  | n + 1 => bytes.getD off 0 * 256 ^ n + beVal bytes (off + 1) n

/-- Value of an `n`-byte unsigned field at `off` under endianness `e`. -/
def uVal (bytes : List Nat) (off n : Nat) (e : Endian) : Nat :=
  match e with
  | .little => leVal bytes off n
  | .big => beVal bytes off n

/-- Value of a `u32` field at `off`. -/
def u32 (bytes : List Nat) (off : Nat) (e : Endian) : Nat :=
  uVal bytes off 4 e

/-- Value of a `u64` field at `off`. -/
def u64 (bytes : List Nat) (off : Nat) (e : Endian) : Nat :=
  uVal bytes off 8 e

/-- The `n` raw bytes at `off` (a `[u8; n]` field). -/
def bytesAt (bytes : List Nat) (off n : Nat) : List Nat :=
  (bytes.drop off).take n

/-- Bounds-checked `u32` read: scroll's `pread_with::<u32>` errors iff fewer than
4 bytes remain at `off`; no byte past the buffer end is ever read. -/
def readU32 (bytes : List Nat) (off : Nat) (e : Endian) : Option Nat :=
  if off + 4 ≤ bytes.length then some (u32 bytes off e) else none

/-- The error type of the decoding core (`error::Error`), restricted to the
constructors this core produces. `malformed` models
`Error::Malformed(format!("{} has size larger than remainder of binary: {:?}", &lc, bytes.len()))`:
the dynamic content of that string is the header's discriminant rendered through
`cmd_to_str` (via the `Display` impl of `LoadCommandHeader`), the declared size,
and the number of available bytes. `decode` models a scroll error from a
fixed-size read running past the buffer; `badOffset` models scroll's bad-offset
error on an out-of-range start offset. -/
inductive MachError where
  | malformed (cmdName : String) (cmdsize : Nat) (available : Nat)
  | decode
  | badOffset (offset : Nat)
deriving DecidableEq

/-- The `error::Result` type of the library. -/
abbrev MachResult (α : Type) : Type := Except MachError α

deriving instance DecidableEq for Except

/-- Layout of `LoadCommandHeader` (src/mach/load_command.rs); fields read sequentially by scroll.
Total decode width: 8 bytes. -/
structure LoadCommandHeader where
  cmd : Nat
  cmdsize : Nat
deriving DecidableEq

/-- Field-by-field valuation of `LoadCommandHeader` at byte offset `off`, mirroring the
sequential field reads of the derived Pread impl (used below a length guard). -/
def LoadCommandHeader.atOff (bytes : List Nat) (off : Nat) (e : Endian) : LoadCommandHeader where
  cmd := u32 bytes off e
  cmdsize := u32 bytes (off + 4) e

/-- Layout of `Section32` (src/mach/load_command.rs); fields read sequentially by scroll.
Total decode width: 68 bytes. -/
structure Section32 where
  sectname : List Nat
  segname : List Nat
  addr : Nat
  size : Nat
  offset : Nat
  align : Nat
  reloff : Nat
  nreloc : Nat
  flags : Nat
  reserved1 : Nat
  reserved2 : Nat
deriving DecidableEq

/-- Field-by-field valuation of `Section32` at byte offset `off`, mirroring the
sequential field reads of the derived Pread impl (used below a length guard). -/
def Section32.atOff (bytes : List Nat) (off : Nat) (e : Endian) : Section32 where
  sectname := bytesAt bytes off 16
  segname := bytesAt bytes (off + 16) 16
  addr := u32 bytes (off + 32) e
  size := u32 bytes (off + 36) e
  offset := u32 bytes (off + 40) e
  align := u32 bytes (off + 44) e
  reloff := u32 bytes (off + 48) e
  nreloc := u32 bytes (off + 52) e
  flags := u32 bytes (off + 56) e
  reserved1 := u32 bytes (off + 60) e
  reserved2 := u32 bytes (off + 64) e

/-- Layout of `Section64` (src/mach/load_command.rs); fields read sequentially by scroll.
Total decode width: 80 bytes. -/
structure Section64 where
  sectname : List Nat
  segname : List Nat
  addr : Nat
  size : Nat
  offset : Nat
  align : Nat
  reloff : Nat
  nreloc : Nat
  flags : Nat
  reserved1 : Nat
  reserved2 : Nat
  reserved3 : Nat
deriving DecidableEq

/-- Field-by-field valuation of `Section64` at byte offset `off`, mirroring the
sequential field reads of the derived Pread impl (used below a length guard). -/
def Section64.atOff (bytes : List Nat) (off : Nat) (e : Endian) : Section64 where
  sectname := bytesAt bytes off 16
  segname := bytesAt bytes (off + 16) 16
  addr := u64 bytes (off + 32) e
  size := u64 bytes (off + 40) e
  offset := u32 bytes (off + 48) e
  align := u32 bytes (off + 52) e
  reloff := u32 bytes (off + 56) e
  nreloc := u32 bytes (off + 60) e
  flags := u32 bytes (off + 64) e
  reserved1 := u32 bytes (off + 68) e
  reserved2 := u32 bytes (off + 72) e
  reserved3 := u32 bytes (off + 76) e

/-- Layout of `SegmentCommand32` (src/mach/load_command.rs); fields read sequentially by scroll.
Total decode width: 56 bytes. -/
structure SegmentCommand32 where
  cmd : Nat
  cmdsize : Nat
  segname : List Nat
  vmaddr : Nat
  vmsize : Nat
  fileoff : Nat
  filesize : Nat
  maxprot : Nat
  initprot : Nat
  nsects : Nat
  flags : Nat
deriving DecidableEq

/-- Field-by-field valuation of `SegmentCommand32` at byte offset `off`, mirroring the
sequential field reads of the derived Pread impl (used below a length guard). -/
def SegmentCommand32.atOff (bytes : List Nat) (off : Nat) (e : Endian) : SegmentCommand32 where
  cmd := u32 bytes off e
  cmdsize := u32 bytes (off + 4) e
  segname := bytesAt bytes (off + 8) 16
  vmaddr := u32 bytes (off + 24) e
  vmsize := u32 bytes (off + 28) e
  fileoff := u32 bytes (off + 32) e
  filesize := u32 bytes (off + 36) e
  maxprot := u32 bytes (off + 40) e
  initprot := u32 bytes (off + 44) e
  nsects := u32 bytes (off + 48) e
  flags := u32 bytes (off + 52) e

/-- Layout of `SegmentCommand64` (src/mach/load_command.rs); fields read sequentially by scroll.
Total decode width: 72 bytes. -/
structure SegmentCommand64 where
  cmd : Nat
  cmdsize : Nat
  segname : List Nat
  vmaddr : Nat
  vmsize : Nat
  fileoff : Nat
  filesize : Nat
  maxprot : Nat
  initprot : Nat
  nsects : Nat
  flags : Nat
deriving DecidableEq

/-- Field-by-field valuation of `SegmentCommand64` at byte offset `off`, mirroring the
sequential field reads of the derived Pread impl (used below a length guard). -/
def SegmentCommand64.atOff (bytes : List Nat) (off : Nat) (e : Endian) : SegmentCommand64 where
  cmd := u32 bytes off e
  cmdsize := u32 bytes (off + 4) e
  segname := bytesAt bytes (off + 8) 16
  vmaddr := u64 bytes (off + 24) e
  vmsize := u64 bytes (off + 32) e
  fileoff := u64 bytes (off + 40) e
  filesize := u64 bytes (off + 48) e
  maxprot := u32 bytes (off + 56) e
  initprot := u32 bytes (off + 60) e
  nsects := u32 bytes (off + 64) e
  flags := u32 bytes (off + 68) e

/-- Layout of `Fvmlib` (src/mach/load_command.rs); fields read sequentially by scroll.
Total decode width: 12 bytes. -/
structure Fvmlib where
  name : Nat
  minor_version : Nat
  header_addr : Nat
deriving DecidableEq

/-- Field-by-field valuation of `Fvmlib` at byte offset `off`, mirroring the
sequential field reads of the derived Pread impl (used below a length guard). -/
def Fvmlib.atOff (bytes : List Nat) (off : Nat) (e : Endian) : Fvmlib where
  name := u32 bytes off e
  minor_version := u32 bytes (off + 4) e
  header_addr := u32 bytes (off + 8) e

/-- Layout of `FvmlibCommand` (src/mach/load_command.rs); fields read sequentially by scroll.
Total decode width: 20 bytes. -/
structure FvmlibCommand where
  cmd : Nat
  cmdsize : Nat
  fvmlib : Fvmlib
deriving DecidableEq

/-- Field-by-field valuation of `FvmlibCommand` at byte offset `off`, mirroring the
sequential field reads of the derived Pread impl (used below a length guard). -/
def FvmlibCommand.atOff (bytes : List Nat) (off : Nat) (e : Endian) : FvmlibCommand where
  cmd := u32 bytes off e
  cmdsize := u32 bytes (off + 4) e
  fvmlib := Fvmlib.atOff bytes (off + 8) e

/-- Layout of `Dylib` (src/mach/load_command.rs); fields read sequentially by scroll.
Total decode width: 16 bytes. -/
structure Dylib where
  name : Nat
  timestamp : Nat
  current_version : Nat
  compatibility_version : Nat
deriving DecidableEq

/-- Field-by-field valuation of `Dylib` at byte offset `off`, mirroring the
sequential field reads of the derived Pread impl (used below a length guard). -/
def Dylib.atOff (bytes : List Nat) (off : Nat) (e : Endian) : Dylib where
  name := u32 bytes off e
  timestamp := u32 bytes (off + 4) e
  current_version := u32 bytes (off + 8) e
  compatibility_version := u32 bytes (off + 12) e

/-- Layout of `DylibCommand` (src/mach/load_command.rs); fields read sequentially by scroll.
Total decode width: 24 bytes. -/
structure DylibCommand where
  cmd : Nat
  cmdsize : Nat
  dylib : Dylib
deriving DecidableEq

/-- Field-by-field valuation of `DylibCommand` at byte offset `off`, mirroring the
sequential field reads of the derived Pread impl (used below a length guard). -/
def DylibCommand.atOff (bytes : List Nat) (off : Nat) (e : Endian) : DylibCommand where
  cmd := u32 bytes off e
  cmdsize := u32 bytes (off + 4) e
  dylib := Dylib.atOff bytes (off + 8) e

/-- Layout of `SubFrameworkCommand` (src/mach/load_command.rs); fields read sequentially by scroll.
Total decode width: 12 bytes. -/
structure SubFrameworkCommand where
  cmd : Nat
  cmdsize : Nat
  umbrella : Nat
deriving DecidableEq

/-- Field-by-field valuation of `SubFrameworkCommand` at byte offset `off`, mirroring the
sequential field reads of the derived Pread impl (used below a length guard). -/
def SubFrameworkCommand.atOff (bytes : List Nat) (off : Nat) (e : Endian) : SubFrameworkCommand where
  cmd := u32 bytes off e
  cmdsize := u32 bytes (off + 4) e
  umbrella := u32 bytes (off + 8) e

/-- Layout of `SubClientCommand` (src/mach/load_command.rs); fields read sequentially by scroll.
Total decode width: 12 bytes. -/
structure SubClientCommand where
  cmd : Nat
  cmdsize : Nat
  client : Nat
deriving DecidableEq

/-- Field-by-field valuation of `SubClientCommand` at byte offset `off`, mirroring the
sequential field reads of the derived Pread impl (used below a length guard). -/
def SubClientCommand.atOff (bytes : List Nat) (off : Nat) (e : Endian) : SubClientCommand where
  cmd := u32 bytes off e
  cmdsize := u32 bytes (off + 4) e
  client := u32 bytes (off + 8) e

/-- Layout of `SubUmbrellaCommand` (src/mach/load_command.rs); fields read sequentially by scroll.
Total decode width: 12 bytes. -/
structure SubUmbrellaCommand where
  cmd : Nat
  cmdsize : Nat
  sub_umbrella : Nat
deriving DecidableEq

/-- Field-by-field valuation of `SubUmbrellaCommand` at byte offset `off`, mirroring the
sequential field reads of the derived Pread impl (used below a length guard). -/
def SubUmbrellaCommand.atOff (bytes : List Nat) (off : Nat) (e : Endian) : SubUmbrellaCommand where
  cmd := u32 bytes off e
  cmdsize := u32 bytes (off + 4) e
  sub_umbrella := u32 bytes (off + 8) e

/-- Layout of `SubLibraryCommand` (src/mach/load_command.rs); fields read sequentially by scroll.
Total decode width: 12 bytes. -/
structure SubLibraryCommand where
  cmd : Nat
  cmdsize : Nat
  sub_library : Nat
deriving DecidableEq

/-- Field-by-field valuation of `SubLibraryCommand` at byte offset `off`, mirroring the
sequential field reads of the derived Pread impl (used below a length guard). -/
def SubLibraryCommand.atOff (bytes : List Nat) (off : Nat) (e : Endian) : SubLibraryCommand where
  cmd := u32 bytes off e
  cmdsize := u32 bytes (off + 4) e
  sub_library := u32 bytes (off + 8) e

/-- Layout of `PreboundDylibCommand` (src/mach/load_command.rs); fields read sequentially by scroll.
Total decode width: 20 bytes. -/
structure PreboundDylibCommand where
  cmd : Nat
  cmdsize : Nat
  name : Nat
  nmodules : Nat
  linked_modules : Nat
deriving DecidableEq

/-- Field-by-field valuation of `PreboundDylibCommand` at byte offset `off`, mirroring the
sequential field reads of the derived Pread impl (used below a length guard). -/
def PreboundDylibCommand.atOff (bytes : List Nat) (off : Nat) (e : Endian) : PreboundDylibCommand where
  cmd := u32 bytes off e
  cmdsize := u32 bytes (off + 4) e
  name := u32 bytes (off + 8) e
  nmodules := u32 bytes (off + 12) e
  linked_modules := u32 bytes (off + 16) e

/-- Layout of `DylinkerCommand` (src/mach/load_command.rs); fields read sequentially by scroll.
Total decode width: 12 bytes. -/
structure DylinkerCommand where
  cmd : Nat
  cmdsize : Nat
  name : Nat
deriving DecidableEq

/-- Field-by-field valuation of `DylinkerCommand` at byte offset `off`, mirroring the
sequential field reads of the derived Pread impl (used below a length guard). -/
def DylinkerCommand.atOff (bytes : List Nat) (off : Nat) (e : Endian) : DylinkerCommand where
  cmd := u32 bytes off e
  cmdsize := u32 bytes (off + 4) e
  name := u32 bytes (off + 8) e

/-- Layout of `I386ThreadState` (src/mach/load_command.rs); fields read sequentially by scroll.
Total decode width: 64 bytes. -/
structure I386ThreadState where
  eax : Nat
  ebx : Nat
  ecx : Nat
  edx : Nat
  edi : Nat
  esi : Nat
  ebp : Nat
  esp : Nat
  ss : Nat
  eflags : Nat
  eip : Nat
  cs : Nat
  ds : Nat
  es : Nat
  fs : Nat
  gs : Nat
deriving DecidableEq

/-- Field-by-field valuation of `I386ThreadState` at byte offset `off`, mirroring the
sequential field reads of the derived Pread impl (used below a length guard). -/
def I386ThreadState.atOff (bytes : List Nat) (off : Nat) (e : Endian) : I386ThreadState where
  eax := u32 bytes off e
  ebx := u32 bytes (off + 4) e
  ecx := u32 bytes (off + 8) e
  edx := u32 bytes (off + 12) e
  edi := u32 bytes (off + 16) e
  esi := u32 bytes (off + 20) e
  ebp := u32 bytes (off + 24) e
  esp := u32 bytes (off + 28) e
  ss := u32 bytes (off + 32) e
  eflags := u32 bytes (off + 36) e
  eip := u32 bytes (off + 40) e
  cs := u32 bytes (off + 44) e
  ds := u32 bytes (off + 48) e
  es := u32 bytes (off + 52) e
  fs := u32 bytes (off + 56) e
  gs := u32 bytes (off + 60) e

/-- Layout of `ThreadCommand` (src/mach/load_command.rs); fields read sequentially by scroll.
Total decode width: 80 bytes. -/
structure ThreadCommand where
  cmd : Nat
  cmdsize : Nat
  flavor : Nat
  count : Nat
  thread_state : I386ThreadState
deriving DecidableEq

/-- Field-by-field valuation of `ThreadCommand` at byte offset `off`, mirroring the
sequential field reads of the derived Pread impl (used below a length guard). -/
def ThreadCommand.atOff (bytes : List Nat) (off : Nat) (e : Endian) : ThreadCommand where
  cmd := u32 bytes off e
  cmdsize := u32 bytes (off + 4) e
  flavor := u32 bytes (off + 8) e
  count := u32 bytes (off + 12) e
  thread_state := I386ThreadState.atOff bytes (off + 16) e

/-- Layout of `RoutinesCommand32` (src/mach/load_command.rs); fields read sequentially by scroll.
Total decode width: 40 bytes. -/
structure RoutinesCommand32 where
  cmd : Nat
  cmdsize : Nat
  init_address : Nat
  init_module : Nat
  reserved1 : Nat
  reserved2 : Nat
  reserved3 : Nat
  reserved4 : Nat
  reserved5 : Nat
  reserved6 : Nat
deriving DecidableEq

/-- Field-by-field valuation of `RoutinesCommand32` at byte offset `off`, mirroring the
sequential field reads of the derived Pread impl (used below a length guard). -/
def RoutinesCommand32.atOff (bytes : List Nat) (off : Nat) (e : Endian) : RoutinesCommand32 where
  cmd := u32 bytes off e
  cmdsize := u32 bytes (off + 4) e
  init_address := u32 bytes (off + 8) e
  init_module := u32 bytes (off + 12) e
  reserved1 := u32 bytes (off + 16) e
  reserved2 := u32 bytes (off + 20) e
  reserved3 := u32 bytes (off + 24) e
  reserved4 := u32 bytes (off + 28) e
  reserved5 := u32 bytes (off + 32) e
  reserved6 := u32 bytes (off + 36) e

/-- Layout of `RoutinesCommand64` (src/mach/load_command.rs); fields read sequentially by scroll.
Total decode width: 72 bytes. -/
structure RoutinesCommand64 where
  cmd : Nat
  cmdsize : Nat
  init_address : Nat
  init_module : Nat
  reserved1 : Nat
  reserved2 : Nat
  reserved3 : Nat
  reserved4 : Nat
  reserved5 : Nat
  reserved6 : Nat
deriving DecidableEq

/-- Field-by-field valuation of `RoutinesCommand64` at byte offset `off`, mirroring the
sequential field reads of the derived Pread impl (used below a length guard). -/
def RoutinesCommand64.atOff (bytes : List Nat) (off : Nat) (e : Endian) : RoutinesCommand64 where
  cmd := u32 bytes off e
  cmdsize := u32 bytes (off + 4) e
  init_address := u64 bytes (off + 8) e
  init_module := u64 bytes (off + 16) e
  reserved1 := u64 bytes (off + 24) e
  reserved2 := u64 bytes (off + 32) e
  reserved3 := u64 bytes (off + 40) e
  reserved4 := u64 bytes (off + 48) e
  reserved5 := u64 bytes (off + 56) e
  reserved6 := u64 bytes (off + 64) e

/-- Layout of `SymtabCommand` (src/mach/load_command.rs); fields read sequentially by scroll.
Total decode width: 24 bytes. -/
structure SymtabCommand where
  cmd : Nat
  cmdsize : Nat
  symoff : Nat
  nsyms : Nat
  stroff : Nat
  strsize : Nat
deriving DecidableEq

/-- Field-by-field valuation of `SymtabCommand` at byte offset `off`, mirroring the
sequential field reads of the derived Pread impl (used below a length guard). -/
def SymtabCommand.atOff (bytes : List Nat) (off : Nat) (e : Endian) : SymtabCommand where
  cmd := u32 bytes off e
  cmdsize := u32 bytes (off + 4) e
  symoff := u32 bytes (off + 8) e
  nsyms := u32 bytes (off + 12) e
  stroff := u32 bytes (off + 16) e
  strsize := u32 bytes (off + 20) e

/-- Layout of `DysymtabCommand` (src/mach/load_command.rs); fields read sequentially by scroll.
Total decode width: 80 bytes. -/
structure DysymtabCommand where
  cmd : Nat
  cmdsize : Nat
  ilocalsym : Nat
  nlocalsym : Nat
  iextdefsym : Nat
  nextdefsym : Nat
  iundefsym : Nat
  nundefsym : Nat
  tocoff : Nat
  ntoc : Nat
  modtaboff : Nat
  nmodtab : Nat
  extrefsymoff : Nat
  nextrefsyms : Nat
  indirectsymoff : Nat
  nindirectsyms : Nat
  extreloff : Nat
  nextrel : Nat
  locreloff : Nat
  nlocrel : Nat
deriving DecidableEq

/-- Field-by-field valuation of `DysymtabCommand` at byte offset `off`, mirroring the
sequential field reads of the derived Pread impl (used below a length guard). -/
def DysymtabCommand.atOff (bytes : List Nat) (off : Nat) (e : Endian) : DysymtabCommand where
  cmd := u32 bytes off e
  cmdsize := u32 bytes (off + 4) e
  ilocalsym := u32 bytes (off + 8) e
  nlocalsym := u32 bytes (off + 12) e
  iextdefsym := u32 bytes (off + 16) e
  nextdefsym := u32 bytes (off + 20) e
  iundefsym := u32 bytes (off + 24) e
  nundefsym := u32 bytes (off + 28) e
  tocoff := u32 bytes (off + 32) e
  ntoc := u32 bytes (off + 36) e
  modtaboff := u32 bytes (off + 40) e
  nmodtab := u32 bytes (off + 44) e
  extrefsymoff := u32 bytes (off + 48) e
  nextrefsyms := u32 bytes (off + 52) e
  indirectsymoff := u32 bytes (off + 56) e
  nindirectsyms := u32 bytes (off + 60) e
  extreloff := u32 bytes (off + 64) e
  nextrel := u32 bytes (off + 68) e
  locreloff := u32 bytes (off + 72) e
  nlocrel := u32 bytes (off + 76) e

/-- Layout of `TwolevelHintsCommand` (src/mach/load_command.rs); fields read sequentially by scroll.
Total decode width: 16 bytes. -/
structure TwolevelHintsCommand where
  cmd : Nat
  cmdsize : Nat
  offset : Nat
  nhints : Nat
deriving DecidableEq

/-- Field-by-field valuation of `TwolevelHintsCommand` at byte offset `off`, mirroring the
sequential field reads of the derived Pread impl (used below a length guard). -/
def TwolevelHintsCommand.atOff (bytes : List Nat) (off : Nat) (e : Endian) : TwolevelHintsCommand where
  cmd := u32 bytes off e
  cmdsize := u32 bytes (off + 4) e
  offset := u32 bytes (off + 8) e
  nhints := u32 bytes (off + 12) e

/-- Layout of `PrebindCksumCommand` (src/mach/load_command.rs); fields read sequentially by scroll.
Total decode width: 12 bytes. -/
structure PrebindCksumCommand where
  cmd : Nat
  cmdsize : Nat
  cksum : Nat
deriving DecidableEq

/-- Field-by-field valuation of `PrebindCksumCommand` at byte offset `off`, mirroring the
sequential field reads of the derived Pread impl (used below a length guard). -/
def PrebindCksumCommand.atOff (bytes : List Nat) (off : Nat) (e : Endian) : PrebindCksumCommand where
  cmd := u32 bytes off e
  cmdsize := u32 bytes (off + 4) e
  cksum := u32 bytes (off + 8) e

/-- Layout of `UuidCommand` (src/mach/load_command.rs); fields read sequentially by scroll.
Total decode width: 24 bytes. -/
structure UuidCommand where
  cmd : Nat
  cmdsize : Nat
  uuid : List Nat
deriving DecidableEq

/-- Field-by-field valuation of `UuidCommand` at byte offset `off`, mirroring the
sequential field reads of the derived Pread impl (used below a length guard). -/
def UuidCommand.atOff (bytes : List Nat) (off : Nat) (e : Endian) : UuidCommand where
  cmd := u32 bytes off e
  cmdsize := u32 bytes (off + 4) e
  uuid := bytesAt bytes (off + 8) 16

/-- Layout of `RpathCommand` (src/mach/load_command.rs); fields read sequentially by scroll.
Total decode width: 12 bytes. -/
structure RpathCommand where
  cmd : Nat
  cmdsize : Nat
  path : Nat
deriving DecidableEq

/-- Field-by-field valuation of `RpathCommand` at byte offset `off`, mirroring the
sequential field reads of the derived Pread impl (used below a length guard). -/
def RpathCommand.atOff (bytes : List Nat) (off : Nat) (e : Endian) : RpathCommand where
  cmd := u32 bytes off e
  cmdsize := u32 bytes (off + 4) e
  path := u32 bytes (off + 8) e

/-- Layout of `LinkeditDataCommand` (src/mach/load_command.rs); fields read sequentially by scroll.
Total decode width: 16 bytes. -/
structure LinkeditDataCommand where
  cmd : Nat
  cmdsize : Nat
  dataoff : Nat
  datasize : Nat
deriving DecidableEq

/-- Field-by-field valuation of `LinkeditDataCommand` at byte offset `off`, mirroring the
sequential field reads of the derived Pread impl (used below a length guard). -/
def LinkeditDataCommand.atOff (bytes : List Nat) (off : Nat) (e : Endian) : LinkeditDataCommand where
  cmd := u32 bytes off e
  cmdsize := u32 bytes (off + 4) e
  dataoff := u32 bytes (off + 8) e
  datasize := u32 bytes (off + 12) e

/-- Layout of `EncryptionInfoCommand32` (src/mach/load_command.rs); fields read sequentially by scroll.
Total decode width: 20 bytes. -/
structure EncryptionInfoCommand32 where
  cmd : Nat
  cmdsize : Nat
  cryptoff : Nat
  cryptsize : Nat
  cryptid : Nat
deriving DecidableEq

/-- Field-by-field valuation of `EncryptionInfoCommand32` at byte offset `off`, mirroring the
sequential field reads of the derived Pread impl (used below a length guard). -/
def EncryptionInfoCommand32.atOff (bytes : List Nat) (off : Nat) (e : Endian) : EncryptionInfoCommand32 where
  cmd := u32 bytes off e
  cmdsize := u32 bytes (off + 4) e
  cryptoff := u32 bytes (off + 8) e
  cryptsize := u32 bytes (off + 12) e
  cryptid := u32 bytes (off + 16) e

/-- Layout of `EncryptionInfoCommand64` (src/mach/load_command.rs); fields read sequentially by scroll.
Total decode width: 24 bytes. -/
structure EncryptionInfoCommand64 where
  cmd : Nat
  cmdsize : Nat
  cryptoff : Nat
  cryptsize : Nat
  cryptid : Nat
  pad : Nat
deriving DecidableEq

/-- Field-by-field valuation of `EncryptionInfoCommand64` at byte offset `off`, mirroring the
sequential field reads of the derived Pread impl (used below a length guard). -/
def EncryptionInfoCommand64.atOff (bytes : List Nat) (off : Nat) (e : Endian) : EncryptionInfoCommand64 where
  cmd := u32 bytes off e
  cmdsize := u32 bytes (off + 4) e
  cryptoff := u32 bytes (off + 8) e
  cryptsize := u32 bytes (off + 12) e
  cryptid := u32 bytes (off + 16) e
  pad := u32 bytes (off + 20) e

/-- Layout of `VersionMinCommand` (src/mach/load_command.rs); fields read sequentially by scroll.
Total decode width: 16 bytes. -/
structure VersionMinCommand where
  cmd : Nat
  cmdsize : Nat
  version : Nat
  sdk : Nat
deriving DecidableEq

/-- Field-by-field valuation of `VersionMinCommand` at byte offset `off`, mirroring the
sequential field reads of the derived Pread impl (used below a length guard). -/
def VersionMinCommand.atOff (bytes : List Nat) (off : Nat) (e : Endian) : VersionMinCommand where
  cmd := u32 bytes off e
  cmdsize := u32 bytes (off + 4) e
  version := u32 bytes (off + 8) e
  sdk := u32 bytes (off + 12) e

/-- Layout of `DyldInfoCommand` (src/mach/load_command.rs); fields read sequentially by scroll.
Total decode width: 48 bytes. -/
structure DyldInfoCommand where
  cmd : Nat
  cmdsize : Nat
  rebase_off : Nat
  rebase_size : Nat
  bind_off : Nat
  bind_size : Nat
  weak_bind_off : Nat
  weak_bind_size : Nat
  lazy_bind_off : Nat
  lazy_bind_size : Nat
  export_off : Nat
  export_size : Nat
deriving DecidableEq

/-- Field-by-field valuation of `DyldInfoCommand` at byte offset `off`, mirroring the
sequential field reads of the derived Pread impl (used below a length guard). -/
def DyldInfoCommand.atOff (bytes : List Nat) (off : Nat) (e : Endian) : DyldInfoCommand where
  cmd := u32 bytes off e
  cmdsize := u32 bytes (off + 4) e
  rebase_off := u32 bytes (off + 8) e
  rebase_size := u32 bytes (off + 12) e
  bind_off := u32 bytes (off + 16) e
  bind_size := u32 bytes (off + 20) e
  weak_bind_off := u32 bytes (off + 24) e
  weak_bind_size := u32 bytes (off + 28) e
  lazy_bind_off := u32 bytes (off + 32) e
  lazy_bind_size := u32 bytes (off + 36) e
  export_off := u32 bytes (off + 40) e
  export_size := u32 bytes (off + 44) e

/-- Layout of `SymsegCommand` (src/mach/load_command.rs); fields read sequentially by scroll.
Total decode width: 16 bytes. -/
structure SymsegCommand where
  cmd : Nat
  cmdsize : Nat
  offset : Nat
  size : Nat
deriving DecidableEq

/-- Field-by-field valuation of `SymsegCommand` at byte offset `off`, mirroring the
sequential field reads of the derived Pread impl (used below a length guard). -/
def SymsegCommand.atOff (bytes : List Nat) (off : Nat) (e : Endian) : SymsegCommand where
  cmd := u32 bytes off e
  cmdsize := u32 bytes (off + 4) e
  offset := u32 bytes (off + 8) e
  size := u32 bytes (off + 12) e

/-- Layout of `IdentCommand` (src/mach/load_command.rs); fields read sequentially by scroll.
Total decode width: 8 bytes. -/
structure IdentCommand where
  cmd : Nat
  cmdsize : Nat
deriving DecidableEq

/-- Field-by-field valuation of `IdentCommand` at byte offset `off`, mirroring the
sequential field reads of the derived Pread impl (used below a length guard). -/
def IdentCommand.atOff (bytes : List Nat) (off : Nat) (e : Endian) : IdentCommand where
  cmd := u32 bytes off e
  cmdsize := u32 bytes (off + 4) e

/-- Layout of `FvmfileCommand` (src/mach/load_command.rs); fields read sequentially by scroll.
Total decode width: 16 bytes. -/
structure FvmfileCommand where
  cmd : Nat
  cmdsize : Nat
  name : Nat
  header_addr : Nat
deriving DecidableEq

/-- Field-by-field valuation of `FvmfileCommand` at byte offset `off`, mirroring the
sequential field reads of the derived Pread impl (used below a length guard). -/
def FvmfileCommand.atOff (bytes : List Nat) (off : Nat) (e : Endian) : FvmfileCommand where
  cmd := u32 bytes off e
  cmdsize := u32 bytes (off + 4) e
  name := u32 bytes (off + 8) e
  header_addr := u32 bytes (off + 12) e

/-- Layout of `EntryPointCommand` (src/mach/load_command.rs); fields read sequentially by scroll.
Total decode width: 24 bytes. -/
structure EntryPointCommand where
  cmd : Nat
  cmdsize : Nat
  entryoff : Nat
  stacksize : Nat
deriving DecidableEq

/-- Field-by-field valuation of `EntryPointCommand` at byte offset `off`, mirroring the
sequential field reads of the derived Pread impl (used below a length guard). -/
def EntryPointCommand.atOff (bytes : List Nat) (off : Nat) (e : Endian) : EntryPointCommand where
  cmd := u32 bytes off e
  cmdsize := u32 bytes (off + 4) e
  entryoff := u64 bytes (off + 8) e
  stacksize := u64 bytes (off + 16) e

/-- Layout of `SourceVersionCommand` (src/mach/load_command.rs); fields read sequentially by scroll.
Total decode width: 16 bytes. -/
structure SourceVersionCommand where
  cmd : Nat
  cmdsize : Nat
  version : Nat
deriving DecidableEq

/-- Field-by-field valuation of `SourceVersionCommand` at byte offset `off`, mirroring the
sequential field reads of the derived Pread impl (used below a length guard). -/
def SourceVersionCommand.atOff (bytes : List Nat) (off : Nat) (e : Endian) : SourceVersionCommand where
  cmd := u32 bytes off e
  cmdsize := u32 bytes (off + 4) e
  version := u64 bytes (off + 8) e

/-- Decode one `LoadCommandHeader` from the start of `bytes` (scroll pread_with at offset 0):
the sequential fixed-width field reads succeed exactly when the buffer holds the
full 8-byte record. -/
def LoadCommandHeader.read (bytes : List Nat) (e : Endian) : Option LoadCommandHeader :=
  if 8 ≤ bytes.length then some (LoadCommandHeader.atOff bytes 0 e) else none

/-- Decode one `SegmentCommand32` from the start of `bytes` (scroll pread_with at offset 0):
the sequential fixed-width field reads succeed exactly when the buffer holds the
full 56-byte record. -/
def SegmentCommand32.read (bytes : List Nat) (e : Endian) : Option SegmentCommand32 :=
  if 56 ≤ bytes.length then some (SegmentCommand32.atOff bytes 0 e) else none

/-- Decode one `SegmentCommand64` from the start of `bytes` (scroll pread_with at offset 0):
the sequential fixed-width field reads succeed exactly when the buffer holds the
full 72-byte record. -/
def SegmentCommand64.read (bytes : List Nat) (e : Endian) : Option SegmentCommand64 :=
  if 72 ≤ bytes.length then some (SegmentCommand64.atOff bytes 0 e) else none

/-- Decode one `FvmlibCommand` from the start of `bytes` (scroll pread_with at offset 0):
the sequential fixed-width field reads succeed exactly when the buffer holds the
full 20-byte record. -/
def FvmlibCommand.read (bytes : List Nat) (e : Endian) : Option FvmlibCommand :=
  if 20 ≤ bytes.length then some (FvmlibCommand.atOff bytes 0 e) else none

/-- Decode one `DylibCommand` from the start of `bytes` (scroll pread_with at offset 0):
the sequential fixed-width field reads succeed exactly when the buffer holds the
full 24-byte record. -/
def DylibCommand.read (bytes : List Nat) (e : Endian) : Option DylibCommand :=
  if 24 ≤ bytes.length then some (DylibCommand.atOff bytes 0 e) else none

/-- Decode one `SubFrameworkCommand` from the start of `bytes` (scroll pread_with at offset 0):
the sequential fixed-width field reads succeed exactly when the buffer holds the
full 12-byte record. -/
def SubFrameworkCommand.read (bytes : List Nat) (e : Endian) : Option SubFrameworkCommand :=
  if 12 ≤ bytes.length then some (SubFrameworkCommand.atOff bytes 0 e) else none

/-- Decode one `SubClientCommand` from the start of `bytes` (scroll pread_with at offset 0):
the sequential fixed-width field reads succeed exactly when the buffer holds the
full 12-byte record. -/
def SubClientCommand.read (bytes : List Nat) (e : Endian) : Option SubClientCommand :=
  if 12 ≤ bytes.length then some (SubClientCommand.atOff bytes 0 e) else none

/-- Decode one `SubUmbrellaCommand` from the start of `bytes` (scroll pread_with at offset 0):
the sequential fixed-width field reads succeed exactly when the buffer holds the
full 12-byte record. -/
def SubUmbrellaCommand.read (bytes : List Nat) (e : Endian) : Option SubUmbrellaCommand :=
  if 12 ≤ bytes.length then some (SubUmbrellaCommand.atOff bytes 0 e) else none

/-- Decode one `SubLibraryCommand` from the start of `bytes` (scroll pread_with at offset 0):
the sequential fixed-width field reads succeed exactly when the buffer holds the
full 12-byte record. -/
def SubLibraryCommand.read (bytes : List Nat) (e : Endian) : Option SubLibraryCommand :=
  if 12 ≤ bytes.length then some (SubLibraryCommand.atOff bytes 0 e) else none

/-- Decode one `PreboundDylibCommand` from the start of `bytes` (scroll pread_with at offset 0):
the sequential fixed-width field reads succeed exactly when the buffer holds the
full 20-byte record. -/
def PreboundDylibCommand.read (bytes : List Nat) (e : Endian) : Option PreboundDylibCommand :=
  if 20 ≤ bytes.length then some (PreboundDylibCommand.atOff bytes 0 e) else none

/-- Decode one `DylinkerCommand` from the start of `bytes` (scroll pread_with at offset 0):
the sequential fixed-width field reads succeed exactly when the buffer holds the
full 12-byte record. -/
def DylinkerCommand.read (bytes : List Nat) (e : Endian) : Option DylinkerCommand :=
  if 12 ≤ bytes.length then some (DylinkerCommand.atOff bytes 0 e) else none

/-- Decode one `ThreadCommand` from the start of `bytes` (scroll pread_with at offset 0):
the sequential fixed-width field reads succeed exactly when the buffer holds the
full 80-byte record. -/
def ThreadCommand.read (bytes : List Nat) (e : Endian) : Option ThreadCommand :=
  if 80 ≤ bytes.length then some (ThreadCommand.atOff bytes 0 e) else none

/-- Decode one `RoutinesCommand32` from the start of `bytes` (scroll pread_with at offset 0):
the sequential fixed-width field reads succeed exactly when the buffer holds the
full 40-byte record. -/
def RoutinesCommand32.read (bytes : List Nat) (e : Endian) : Option RoutinesCommand32 :=
  if 40 ≤ bytes.length then some (RoutinesCommand32.atOff bytes 0 e) else none

/-- Decode one `RoutinesCommand64` from the start of `bytes` (scroll pread_with at offset 0):
the sequential fixed-width field reads succeed exactly when the buffer holds the
full 72-byte record. -/
def RoutinesCommand64.read (bytes : List Nat) (e : Endian) : Option RoutinesCommand64 :=
  if 72 ≤ bytes.length then some (RoutinesCommand64.atOff bytes 0 e) else none

/-- Decode one `SymtabCommand` from the start of `bytes` (scroll pread_with at offset 0):
the sequential fixed-width field reads succeed exactly when the buffer holds the
full 24-byte record. -/
def SymtabCommand.read (bytes : List Nat) (e : Endian) : Option SymtabCommand :=
  if 24 ≤ bytes.length then some (SymtabCommand.atOff bytes 0 e) else none

/-- Decode one `DysymtabCommand` from the start of `bytes` (scroll pread_with at offset 0):
the sequential fixed-width field reads succeed exactly when the buffer holds the
full 80-byte record. -/
def DysymtabCommand.read (bytes : List Nat) (e : Endian) : Option DysymtabCommand :=
  if 80 ≤ bytes.length then some (DysymtabCommand.atOff bytes 0 e) else none

/-- Decode one `TwolevelHintsCommand` from the start of `bytes` (scroll pread_with at offset 0):
the sequential fixed-width field reads succeed exactly when the buffer holds the
full 16-byte record. -/
def TwolevelHintsCommand.read (bytes : List Nat) (e : Endian) : Option TwolevelHintsCommand :=
  if 16 ≤ bytes.length then some (TwolevelHintsCommand.atOff bytes 0 e) else none

/-- Decode one `PrebindCksumCommand` from the start of `bytes` (scroll pread_with at offset 0):
the sequential fixed-width field reads succeed exactly when the buffer holds the
full 12-byte record. -/
def PrebindCksumCommand.read (bytes : List Nat) (e : Endian) : Option PrebindCksumCommand :=
  if 12 ≤ bytes.length then some (PrebindCksumCommand.atOff bytes 0 e) else none

/-- Decode one `UuidCommand` from the start of `bytes` (scroll pread_with at offset 0):
the sequential fixed-width field reads succeed exactly when the buffer holds the
full 24-byte record. -/
def UuidCommand.read (bytes : List Nat) (e : Endian) : Option UuidCommand :=
  if 24 ≤ bytes.length then some (UuidCommand.atOff bytes 0 e) else none

/-- Decode one `RpathCommand` from the start of `bytes` (scroll pread_with at offset 0):
the sequential fixed-width field reads succeed exactly when the buffer holds the
full 12-byte record. -/
def RpathCommand.read (bytes : List Nat) (e : Endian) : Option RpathCommand :=
  if 12 ≤ bytes.length then some (RpathCommand.atOff bytes 0 e) else none

/-- Decode one `LinkeditDataCommand` from the start of `bytes` (scroll pread_with at offset 0):
the sequential fixed-width field reads succeed exactly when the buffer holds the
full 16-byte record. -/
def LinkeditDataCommand.read (bytes : List Nat) (e : Endian) : Option LinkeditDataCommand :=
  if 16 ≤ bytes.length then some (LinkeditDataCommand.atOff bytes 0 e) else none

/-- Decode one `EncryptionInfoCommand32` from the start of `bytes` (scroll pread_with at offset 0):
the sequential fixed-width field reads succeed exactly when the buffer holds the
full 20-byte record. -/
def EncryptionInfoCommand32.read (bytes : List Nat) (e : Endian) : Option EncryptionInfoCommand32 :=
  if 20 ≤ bytes.length then some (EncryptionInfoCommand32.atOff bytes 0 e) else none

/-- Decode one `EncryptionInfoCommand64` from the start of `bytes` (scroll pread_with at offset 0):
the sequential fixed-width field reads succeed exactly when the buffer holds the
full 24-byte record. -/
def EncryptionInfoCommand64.read (bytes : List Nat) (e : Endian) : Option EncryptionInfoCommand64 :=
  if 24 ≤ bytes.length then some (EncryptionInfoCommand64.atOff bytes 0 e) else none

/-- Decode one `VersionMinCommand` from the start of `bytes` (scroll pread_with at offset 0):
the sequential fixed-width field reads succeed exactly when the buffer holds the
full 16-byte record. -/
def VersionMinCommand.read (bytes : List Nat) (e : Endian) : Option VersionMinCommand :=
  if 16 ≤ bytes.length then some (VersionMinCommand.atOff bytes 0 e) else none

/-- Decode one `DyldInfoCommand` from the start of `bytes` (scroll pread_with at offset 0):
the sequential fixed-width field reads succeed exactly when the buffer holds the
full 48-byte record. -/
def DyldInfoCommand.read (bytes : List Nat) (e : Endian) : Option DyldInfoCommand :=
  if 48 ≤ bytes.length then some (DyldInfoCommand.atOff bytes 0 e) else none

/-- Decode one `SymsegCommand` from the start of `bytes` (scroll pread_with at offset 0):
the sequential fixed-width field reads succeed exactly when the buffer holds the
full 16-byte record. -/
def SymsegCommand.read (bytes : List Nat) (e : Endian) : Option SymsegCommand :=
  if 16 ≤ bytes.length then some (SymsegCommand.atOff bytes 0 e) else none

/-- Decode one `IdentCommand` from the start of `bytes` (scroll pread_with at offset 0):
the sequential fixed-width field reads succeed exactly when the buffer holds the
full 8-byte record. -/
def IdentCommand.read (bytes : List Nat) (e : Endian) : Option IdentCommand :=
  if 8 ≤ bytes.length then some (IdentCommand.atOff bytes 0 e) else none

/-- Decode one `FvmfileCommand` from the start of `bytes` (scroll pread_with at offset 0):
the sequential fixed-width field reads succeed exactly when the buffer holds the
full 16-byte record. -/
def FvmfileCommand.read (bytes : List Nat) (e : Endian) : Option FvmfileCommand :=
  if 16 ≤ bytes.length then some (FvmfileCommand.atOff bytes 0 e) else none

/-- Decode one `EntryPointCommand` from the start of `bytes` (scroll pread_with at offset 0):
the sequential fixed-width field reads succeed exactly when the buffer holds the
full 24-byte record. -/
def EntryPointCommand.read (bytes : List Nat) (e : Endian) : Option EntryPointCommand :=
  if 24 ≤ bytes.length then some (EntryPointCommand.atOff bytes 0 e) else none

/-- Decode one `SourceVersionCommand` from the start of `bytes` (scroll pread_with at offset 0):
the sequential fixed-width field reads succeed exactly when the buffer holds the
full 16-byte record. -/
def SourceVersionCommand.read (bytes : List Nat) (e : Endian) : Option SourceVersionCommand :=
  if 16 ≤ bytes.length then some (SourceVersionCommand.atOff bytes 0 e) else none

theorem LoadCommandHeader_read_hdr {bytes : List Nat} {e : Endian} {c : LoadCommandHeader}
    (h : LoadCommandHeader.read bytes e = some c) :
    8 ≤ bytes.length ∧ c.cmd = u32 bytes 0 e ∧ c.cmdsize = u32 bytes 4 e := by
  unfold LoadCommandHeader.read at h
  split at h
  · injection h with h
    subst h
    exact ⟨by omega, rfl, rfl⟩
  · exact Option.noConfusion h

theorem SegmentCommand32_read_hdr {bytes : List Nat} {e : Endian} {c : SegmentCommand32}
    (h : SegmentCommand32.read bytes e = some c) :
    8 ≤ bytes.length ∧ c.cmd = u32 bytes 0 e ∧ c.cmdsize = u32 bytes 4 e := by
  unfold SegmentCommand32.read at h
  split at h
  · injection h with h
    subst h
    exact ⟨by omega, rfl, rfl⟩
  · exact Option.noConfusion h

theorem SegmentCommand64_read_hdr {bytes : List Nat} {e : Endian} {c : SegmentCommand64}
    (h : SegmentCommand64.read bytes e = some c) :
    8 ≤ bytes.length ∧ c.cmd = u32 bytes 0 e ∧ c.cmdsize = u32 bytes 4 e := by
  unfold SegmentCommand64.read at h
  split at h
  · injection h with h
    subst h
    exact ⟨by omega, rfl, rfl⟩
  · exact Option.noConfusion h

theorem FvmlibCommand_read_hdr {bytes : List Nat} {e : Endian} {c : FvmlibCommand}
    (h : FvmlibCommand.read bytes e = some c) :
    8 ≤ bytes.length ∧ c.cmd = u32 bytes 0 e ∧ c.cmdsize = u32 bytes 4 e := by
  unfold FvmlibCommand.read at h
  split at h
  · injection h with h
    subst h
    exact ⟨by omega, rfl, rfl⟩
  · exact Option.noConfusion h

theorem DylibCommand_read_hdr {bytes : List Nat} {e : Endian} {c : DylibCommand}
    (h : DylibCommand.read bytes e = some c) :
    8 ≤ bytes.length ∧ c.cmd = u32 bytes 0 e ∧ c.cmdsize = u32 bytes 4 e := by
  unfold DylibCommand.read at h
  split at h
  · injection h with h
    subst h
    exact ⟨by omega, rfl, rfl⟩
  · exact Option.noConfusion h

theorem SubFrameworkCommand_read_hdr {bytes : List Nat} {e : Endian} {c : SubFrameworkCommand}
    (h : SubFrameworkCommand.read bytes e = some c) :
    8 ≤ bytes.length ∧ c.cmd = u32 bytes 0 e ∧ c.cmdsize = u32 bytes 4 e := by
  unfold SubFrameworkCommand.read at h
  split at h
  · injection h with h
    subst h
    exact ⟨by omega, rfl, rfl⟩
  · exact Option.noConfusion h

theorem SubClientCommand_read_hdr {bytes : List Nat} {e : Endian} {c : SubClientCommand}
    (h : SubClientCommand.read bytes e = some c) :
    8 ≤ bytes.length ∧ c.cmd = u32 bytes 0 e ∧ c.cmdsize = u32 bytes 4 e := by
  unfold SubClientCommand.read at h
  split at h
  · injection h with h
    subst h
    exact ⟨by omega, rfl, rfl⟩
  · exact Option.noConfusion h

theorem SubUmbrellaCommand_read_hdr {bytes : List Nat} {e : Endian} {c : SubUmbrellaCommand}
    (h : SubUmbrellaCommand.read bytes e = some c) :
    8 ≤ bytes.length ∧ c.cmd = u32 bytes 0 e ∧ c.cmdsize = u32 bytes 4 e := by
  unfold SubUmbrellaCommand.read at h
  split at h
  · injection h with h
    subst h
    exact ⟨by omega, rfl, rfl⟩
  · exact Option.noConfusion h

theorem SubLibraryCommand_read_hdr {bytes : List Nat} {e : Endian} {c : SubLibraryCommand}
    (h : SubLibraryCommand.read bytes e = some c) :
    8 ≤ bytes.length ∧ c.cmd = u32 bytes 0 e ∧ c.cmdsize = u32 bytes 4 e := by
  unfold SubLibraryCommand.read at h
  split at h
  · injection h with h
    subst h
    exact ⟨by omega, rfl, rfl⟩
  · exact Option.noConfusion h

theorem PreboundDylibCommand_read_hdr {bytes : List Nat} {e : Endian} {c : PreboundDylibCommand}
    (h : PreboundDylibCommand.read bytes e = some c) :
    8 ≤ bytes.length ∧ c.cmd = u32 bytes 0 e ∧ c.cmdsize = u32 bytes 4 e := by
  unfold PreboundDylibCommand.read at h
  split at h
  · injection h with h
    subst h
    exact ⟨by omega, rfl, rfl⟩
  · exact Option.noConfusion h

theorem DylinkerCommand_read_hdr {bytes : List Nat} {e : Endian} {c : DylinkerCommand}
    (h : DylinkerCommand.read bytes e = some c) :
    8 ≤ bytes.length ∧ c.cmd = u32 bytes 0 e ∧ c.cmdsize = u32 bytes 4 e := by
  unfold DylinkerCommand.read at h
  split at h
  · injection h with h
    subst h
    exact ⟨by omega, rfl, rfl⟩
  · exact Option.noConfusion h

theorem ThreadCommand_read_hdr {bytes : List Nat} {e : Endian} {c : ThreadCommand}
    (h : ThreadCommand.read bytes e = some c) :
    8 ≤ bytes.length ∧ c.cmd = u32 bytes 0 e ∧ c.cmdsize = u32 bytes 4 e := by
  unfold ThreadCommand.read at h
  split at h
  · injection h with h
    subst h
    exact ⟨by omega, rfl, rfl⟩
  · exact Option.noConfusion h

theorem RoutinesCommand32_read_hdr {bytes : List Nat} {e : Endian} {c : RoutinesCommand32}
    (h : RoutinesCommand32.read bytes e = some c) :
    8 ≤ bytes.length ∧ c.cmd = u32 bytes 0 e ∧ c.cmdsize = u32 bytes 4 e := by
  unfold RoutinesCommand32.read at h
  split at h
  · injection h with h
    subst h
    exact ⟨by omega, rfl, rfl⟩
  · exact Option.noConfusion h

theorem RoutinesCommand64_read_hdr {bytes : List Nat} {e : Endian} {c : RoutinesCommand64}
    (h : RoutinesCommand64.read bytes e = some c) :
    8 ≤ bytes.length ∧ c.cmd = u32 bytes 0 e ∧ c.cmdsize = u32 bytes 4 e := by
  unfold RoutinesCommand64.read at h
  split at h
  · injection h with h
    subst h
    exact ⟨by omega, rfl, rfl⟩
  · exact Option.noConfusion h

theorem SymtabCommand_read_hdr {bytes : List Nat} {e : Endian} {c : SymtabCommand}
    (h : SymtabCommand.read bytes e = some c) :
    8 ≤ bytes.length ∧ c.cmd = u32 bytes 0 e ∧ c.cmdsize = u32 bytes 4 e := by
  unfold SymtabCommand.read at h
  split at h
  · injection h with h
    subst h
    exact ⟨by omega, rfl, rfl⟩
  · exact Option.noConfusion h

theorem DysymtabCommand_read_hdr {bytes : List Nat} {e : Endian} {c : DysymtabCommand}
    (h : DysymtabCommand.read bytes e = some c) :
    8 ≤ bytes.length ∧ c.cmd = u32 bytes 0 e ∧ c.cmdsize = u32 bytes 4 e := by
  unfold DysymtabCommand.read at h
  split at h
  · injection h with h
    subst h
    exact ⟨by omega, rfl, rfl⟩
  · exact Option.noConfusion h

theorem TwolevelHintsCommand_read_hdr {bytes : List Nat} {e : Endian} {c : TwolevelHintsCommand}
    (h : TwolevelHintsCommand.read bytes e = some c) :
    8 ≤ bytes.length ∧ c.cmd = u32 bytes 0 e ∧ c.cmdsize = u32 bytes 4 e := by
  unfold TwolevelHintsCommand.read at h
  split at h
  · injection h with h
    subst h
    exact ⟨by omega, rfl, rfl⟩
  · exact Option.noConfusion h

theorem PrebindCksumCommand_read_hdr {bytes : List Nat} {e : Endian} {c : PrebindCksumCommand}
    (h : PrebindCksumCommand.read bytes e = some c) :
    8 ≤ bytes.length ∧ c.cmd = u32 bytes 0 e ∧ c.cmdsize = u32 bytes 4 e := by
  unfold PrebindCksumCommand.read at h
  split at h
  · injection h with h
    subst h
    exact ⟨by omega, rfl, rfl⟩
  · exact Option.noConfusion h

theorem UuidCommand_read_hdr {bytes : List Nat} {e : Endian} {c : UuidCommand}
    (h : UuidCommand.read bytes e = some c) :
    8 ≤ bytes.length ∧ c.cmd = u32 bytes 0 e ∧ c.cmdsize = u32 bytes 4 e := by
  unfold UuidCommand.read at h
  split at h
  · injection h with h
    subst h
    exact ⟨by omega, rfl, rfl⟩
  · exact Option.noConfusion h

theorem RpathCommand_read_hdr {bytes : List Nat} {e : Endian} {c : RpathCommand}
    (h : RpathCommand.read bytes e = some c) :
    8 ≤ bytes.length ∧ c.cmd = u32 bytes 0 e ∧ c.cmdsize = u32 bytes 4 e := by
  unfold RpathCommand.read at h
  split at h
  · injection h with h
    subst h
    exact ⟨by omega, rfl, rfl⟩
  · exact Option.noConfusion h

theorem LinkeditDataCommand_read_hdr {bytes : List Nat} {e : Endian} {c : LinkeditDataCommand}
    (h : LinkeditDataCommand.read bytes e = some c) :
    8 ≤ bytes.length ∧ c.cmd = u32 bytes 0 e ∧ c.cmdsize = u32 bytes 4 e := by
  unfold LinkeditDataCommand.read at h
  split at h
  · injection h with h
    subst h
    exact ⟨by omega, rfl, rfl⟩
  · exact Option.noConfusion h

theorem EncryptionInfoCommand32_read_hdr {bytes : List Nat} {e : Endian} {c : EncryptionInfoCommand32}
    (h : EncryptionInfoCommand32.read bytes e = some c) :
    8 ≤ bytes.length ∧ c.cmd = u32 bytes 0 e ∧ c.cmdsize = u32 bytes 4 e := by
  unfold EncryptionInfoCommand32.read at h
  split at h
  · injection h with h
    subst h
    exact ⟨by omega, rfl, rfl⟩
  · exact Option.noConfusion h

theorem EncryptionInfoCommand64_read_hdr {bytes : List Nat} {e : Endian} {c : EncryptionInfoCommand64}
    (h : EncryptionInfoCommand64.read bytes e = some c) :
    8 ≤ bytes.length ∧ c.cmd = u32 bytes 0 e ∧ c.cmdsize = u32 bytes 4 e := by
  unfold EncryptionInfoCommand64.read at h
  split at h
  · injection h with h
    subst h
    exact ⟨by omega, rfl, rfl⟩
  · exact Option.noConfusion h

theorem VersionMinCommand_read_hdr {bytes : List Nat} {e : Endian} {c : VersionMinCommand}
    (h : VersionMinCommand.read bytes e = some c) :
    8 ≤ bytes.length ∧ c.cmd = u32 bytes 0 e ∧ c.cmdsize = u32 bytes 4 e := by
  unfold VersionMinCommand.read at h
  split at h
  · injection h with h
    subst h
    exact ⟨by omega, rfl, rfl⟩
  · exact Option.noConfusion h

theorem DyldInfoCommand_read_hdr {bytes : List Nat} {e : Endian} {c : DyldInfoCommand}
    (h : DyldInfoCommand.read bytes e = some c) :
    8 ≤ bytes.length ∧ c.cmd = u32 bytes 0 e ∧ c.cmdsize = u32 bytes 4 e := by
  unfold DyldInfoCommand.read at h
  split at h
  · injection h with h
    subst h
    exact ⟨by omega, rfl, rfl⟩
  · exact Option.noConfusion h

theorem SymsegCommand_read_hdr {bytes : List Nat} {e : Endian} {c : SymsegCommand}
    (h : SymsegCommand.read bytes e = some c) :
    8 ≤ bytes.length ∧ c.cmd = u32 bytes 0 e ∧ c.cmdsize = u32 bytes 4 e := by
  unfold SymsegCommand.read at h
  split at h
  · injection h with h
    subst h
    exact ⟨by omega, rfl, rfl⟩
  · exact Option.noConfusion h

theorem IdentCommand_read_hdr {bytes : List Nat} {e : Endian} {c : IdentCommand}
    (h : IdentCommand.read bytes e = some c) :
    8 ≤ bytes.length ∧ c.cmd = u32 bytes 0 e ∧ c.cmdsize = u32 bytes 4 e := by
  unfold IdentCommand.read at h
  split at h
  · injection h with h
    subst h
    exact ⟨by omega, rfl, rfl⟩
  · exact Option.noConfusion h

theorem FvmfileCommand_read_hdr {bytes : List Nat} {e : Endian} {c : FvmfileCommand}
    (h : FvmfileCommand.read bytes e = some c) :
    8 ≤ bytes.length ∧ c.cmd = u32 bytes 0 e ∧ c.cmdsize = u32 bytes 4 e := by
  unfold FvmfileCommand.read at h
  split at h
  · injection h with h
    subst h
    exact ⟨by omega, rfl, rfl⟩
  · exact Option.noConfusion h

theorem EntryPointCommand_read_hdr {bytes : List Nat} {e : Endian} {c : EntryPointCommand}
    (h : EntryPointCommand.read bytes e = some c) :
    8 ≤ bytes.length ∧ c.cmd = u32 bytes 0 e ∧ c.cmdsize = u32 bytes 4 e := by
  unfold EntryPointCommand.read at h
  split at h
  · injection h with h
    subst h
    exact ⟨by omega, rfl, rfl⟩
  · exact Option.noConfusion h

theorem SourceVersionCommand_read_hdr {bytes : List Nat} {e : Endian} {c : SourceVersionCommand}
    (h : SourceVersionCommand.read bytes e = some c) :
    8 ≤ bytes.length ∧ c.cmd = u32 bytes 0 e ∧ c.cmdsize = u32 bytes 4 e := by
  unfold SourceVersionCommand.read at h
  split at h
  · injection h with h
    subst h
    exact ⟨by omega, rfl, rfl⟩
  · exact Option.noConfusion h
/-- Model of `cmd_to_str` from src/mach/load_command.rs: symbolic name of a load-command
discriminant; every value outside the table renders as LC_UNKNOWN. -/
def cmd_to_str (cmd : Nat) : String :=
  match cmd with
  | 0x1 => "LC_SEGMENT"
  | 0x2 => "LC_SYMTAB"
  | 0x3 => "LC_SYMSEG"
  | 0x4 => "LC_THREAD"
  | 0x5 => "LC_UNIXTHREAD"
  | 0x6 => "LC_LOADFVMLIB"
  | 0x7 => "LC_IDFVMLIB"
  | 0x8 => "LC_IDENT"
  | 0x9 => "LC_FVMFILE"
  | 0xa => "LC_PREPAGE"
  | 0xb => "LC_DYSYMTAB"
  | 0xc => "LC_LOAD_DYLIB"
  | 0xd => "LC_ID_DYLIB"
  | 0xe => "LC_LOAD_DYLINKER"
  | 0xf => "LC_ID_DYLINKER"
  | 0x10 => "LC_PREBOUND_DYLIB"
  | 0x11 => "LC_ROUTINES"
  | 0x12 => "LC_SUB_FRAMEWORK"
  | 0x13 => "LC_SUB_UMBRELLA"
  | 0x14 => "LC_SUB_CLIENT"
  | 0x15 => "LC_SUB_LIBRARY"
  | 0x16 => "LC_TWOLEVEL_HINTS"
  | 0x17 => "LC_PREBIND_CKSUM"
  | 0x80000018 => "LC_LOAD_WEAK_DYLIB"
  | 0x19 => "LC_SEGMENT_64"
  | 0x1a => "LC_ROUTINES_64"
  | 0x1b => "LC_UUID"
  | 0x8000001c => "LC_RPATH"
  | 0x1d => "LC_CODE_SIGNATURE"
  | 0x1e => "LC_SEGMENT_SPLIT_INFO"
  | 0x8000001f => "LC_REEXPORT_DYLIB"
  | 0x20 => "LC_LAZY_LOAD_DYLIB"
  | 0x21 => "LC_ENCRYPTION_INFO"
  | 0x22 => "LC_DYLD_INFO"
  | 0x80000022 => "LC_DYLD_INFO_ONLY"
  | 0x80000023 => "LC_LOAD_UPWARD_DYLIB"
  | 0x24 => "LC_VERSION_MIN_MACOSX"
  | 0x25 => "LC_VERSION_MIN_IPHONEOS"
  | 0x26 => "LC_FUNCTION_STARTS"
  | 0x27 => "LC_DYLD_ENVIRONMENT"
  | 0x80000028 => "LC_MAIN"
  | 0x29 => "LC_DATA_IN_CODE"
  | 0x2a => "LC_SOURCE_VERSION"
  | 0x2b => "LC_DYLIB_CODE_SIGN_DRS"
  | 0x2c => "LC_ENCRYPTION_INFO_64"
  | 0x2d => "LC_LINKER_OPTION"
  | 0x2e => "LC_LINKER_OPTIMIZATION_HINT"
  | _ => "LC_UNKNOWN"

/-- The 47 discriminant values with a dedicated arm in `CommandVariant.tryFromCtx`;
every other discriminant falls through to the `unimplemented` arm. -/
def isKnownCmd (cmd : Nat) : Bool :=
  cmd == 0x1 || cmd == 0x19 || cmd == 0xb || cmd == 0xe || cmd == 0xf || cmd == 0x1b || cmd
    == 0x2 || cmd == 0x3 || cmd == 0x4 || cmd == 0x5 || cmd == 0x6 || cmd == 0x7 || cmd == 0x8
    || cmd == 0x9 || cmd == 0xa || cmd == 0xc || cmd == 0xd || cmd == 0x10 || cmd == 0x11 ||
    cmd == 0x1a || cmd == 0x12 || cmd == 0x13 || cmd == 0x14 || cmd == 0x15 || cmd == 0x16 ||
    cmd == 0x17 || cmd == 0x80000018 || cmd == 0x8000001c || cmd == 0x1d || cmd == 0x1e || cmd
    == 0x8000001f || cmd == 0x20 || cmd == 0x21 || cmd == 0x2c || cmd == 0x22 || cmd ==
    0x80000022 || cmd == 0x80000023 || cmd == 0x24 || cmd == 0x25 || cmd == 0x26 || cmd ==
    0x27 || cmd == 0x80000028 || cmd == 0x29 || cmd == 0x2a || cmd == 0x2b || cmd == 0x2d ||
    cmd == 0x2e

/-- The decoded load-command tagged union (`CommandVariant` in src/mach/load_command.rs). -/
inductive CommandVariant where
  | segment32              (comm : SegmentCommand32)
  | segment64              (comm : SegmentCommand64)
  | dysymtab               (comm : DysymtabCommand)
  | loadDylinker           (comm : DylinkerCommand)
  | idDylinker             (comm : DylinkerCommand)
  | uuid                   (comm : UuidCommand)
  | symtab                 (comm : SymtabCommand)
  | symseg                 (comm : SymsegCommand)
  | thread                 (comm : ThreadCommand)
  | unixthread             (comm : ThreadCommand)
  | loadFvmlib             (comm : FvmlibCommand)
  | idFvmlib               (comm : FvmlibCommand)
  | ident                  (comm : IdentCommand)
  | fvmfile                (comm : FvmfileCommand)
  | prepage                (comm : LoadCommandHeader)
  | loadDylib              (comm : DylibCommand)
  | idDylib                (comm : DylibCommand)
  | preboundDylib          (comm : PreboundDylibCommand)
  | routines32             (comm : RoutinesCommand32)
  | routines64             (comm : RoutinesCommand64)
  | subFramework           (comm : SubFrameworkCommand)
  | subUmbrella            (comm : SubUmbrellaCommand)
  | subClient              (comm : SubClientCommand)
  | subLibrary             (comm : SubLibraryCommand)
  | twolevelHints          (comm : TwolevelHintsCommand)
  | prebindCksum           (comm : PrebindCksumCommand)
  | loadWeakDylib          (comm : DylibCommand)
  | rpath                  (comm : RpathCommand)
  | codeSignature          (comm : LinkeditDataCommand)
  | segmentSplitInfo       (comm : LinkeditDataCommand)
  | reexportDylib          (comm : DylibCommand)
  | lazyLoadDylib          (comm : DylibCommand)
  | encryptionInfo32       (comm : EncryptionInfoCommand32)
  | encryptionInfo64       (comm : EncryptionInfoCommand64)
  | dyldInfo               (comm : DyldInfoCommand)
  | dyldInfoOnly           (comm : DyldInfoCommand)
  | loadUpwardDylib        (comm : DylibCommand)
  | versionMinMacosx       (comm : VersionMinCommand)
  | versionMinIphoneos     (comm : VersionMinCommand)
  | functionStarts         (comm : LinkeditDataCommand)
  | dyldEnvironment        (comm : DylinkerCommand)
  | main                   (comm : EntryPointCommand)
  | dataInCode             (comm : LinkeditDataCommand)
  | sourceVersion          (comm : SourceVersionCommand)
  | dylibCodeSignDrs       (comm : LinkeditDataCommand)
  | linkerOption           (comm : LinkeditDataCommand)
  | linkerOptimizationHint (comm : LinkeditDataCommand)
  | unimplemented          (comm : LoadCommandHeader)
deriving DecidableEq

/-- Model of `CommandVariant::cmdsize`: the declared size reported by the decoded record
(`comm.cmdsize as usize`). -/
def CommandVariant.cmdsize (v : CommandVariant) : Nat :=
  match v with
  | .segment32              comm => comm.cmdsize
  | .segment64              comm => comm.cmdsize
  | .dysymtab               comm => comm.cmdsize
  | .loadDylinker           comm => comm.cmdsize
  | .idDylinker             comm => comm.cmdsize
  | .uuid                   comm => comm.cmdsize
  | .symtab                 comm => comm.cmdsize
  | .symseg                 comm => comm.cmdsize
  | .thread                 comm => comm.cmdsize
  | .unixthread             comm => comm.cmdsize
  | .loadFvmlib             comm => comm.cmdsize
  | .idFvmlib               comm => comm.cmdsize
  | .ident                  comm => comm.cmdsize
  | .fvmfile                comm => comm.cmdsize
  | .prepage                comm => comm.cmdsize
  | .loadDylib              comm => comm.cmdsize
  | .idDylib                comm => comm.cmdsize
  | .preboundDylib          comm => comm.cmdsize
  | .routines32             comm => comm.cmdsize
  | .routines64             comm => comm.cmdsize
  | .subFramework           comm => comm.cmdsize
  | .subUmbrella            comm => comm.cmdsize
  | .subClient              comm => comm.cmdsize
  | .subLibrary             comm => comm.cmdsize
  | .twolevelHints          comm => comm.cmdsize
  | .prebindCksum           comm => comm.cmdsize
  | .loadWeakDylib          comm => comm.cmdsize
  | .rpath                  comm => comm.cmdsize
  | .codeSignature          comm => comm.cmdsize
  | .segmentSplitInfo       comm => comm.cmdsize
  | .reexportDylib          comm => comm.cmdsize
  | .lazyLoadDylib          comm => comm.cmdsize
  | .encryptionInfo32       comm => comm.cmdsize
  | .encryptionInfo64       comm => comm.cmdsize
  | .dyldInfo               comm => comm.cmdsize
  | .dyldInfoOnly           comm => comm.cmdsize
  | .loadUpwardDylib        comm => comm.cmdsize
  | .versionMinMacosx       comm => comm.cmdsize
  | .versionMinIphoneos     comm => comm.cmdsize
  | .functionStarts         comm => comm.cmdsize
  | .dyldEnvironment        comm => comm.cmdsize
  | .main                   comm => comm.cmdsize
  | .dataInCode             comm => comm.cmdsize
  | .sourceVersion          comm => comm.cmdsize
  | .dylibCodeSignDrs       comm => comm.cmdsize
  | .linkerOption           comm => comm.cmdsize
  | .linkerOptimizationHint comm => comm.cmdsize
  | .unimplemented          comm => comm.cmdsize

/-- Model of `CommandVariant::cmd`: the discriminant reported by the decoded record. -/
def CommandVariant.cmd (v : CommandVariant) : Nat :=
  match v with
  | .segment32              comm => comm.cmd
  | .segment64              comm => comm.cmd
  | .dysymtab               comm => comm.cmd
  | .loadDylinker           comm => comm.cmd
  | .idDylinker             comm => comm.cmd
  | .uuid                   comm => comm.cmd
  | .symtab                 comm => comm.cmd
  | .symseg                 comm => comm.cmd
  | .thread                 comm => comm.cmd
  | .unixthread             comm => comm.cmd
  | .loadFvmlib             comm => comm.cmd
  | .idFvmlib               comm => comm.cmd
  | .ident                  comm => comm.cmd
  | .fvmfile                comm => comm.cmd
  | .prepage                comm => comm.cmd
  | .loadDylib              comm => comm.cmd
  | .idDylib                comm => comm.cmd
  | .preboundDylib          comm => comm.cmd
  | .routines32             comm => comm.cmd
  | .routines64             comm => comm.cmd
  | .subFramework           comm => comm.cmd
  | .subUmbrella            comm => comm.cmd
  | .subClient              comm => comm.cmd
  | .subLibrary             comm => comm.cmd
  | .twolevelHints          comm => comm.cmd
  | .prebindCksum           comm => comm.cmd
  | .loadWeakDylib          comm => comm.cmd
  | .rpath                  comm => comm.cmd
  | .codeSignature          comm => comm.cmd
  | .segmentSplitInfo       comm => comm.cmd
  | .reexportDylib          comm => comm.cmd
  | .lazyLoadDylib          comm => comm.cmd
  | .encryptionInfo32       comm => comm.cmd
  | .encryptionInfo64       comm => comm.cmd
  | .dyldInfo               comm => comm.cmd
  | .dyldInfoOnly           comm => comm.cmd
  | .loadUpwardDylib        comm => comm.cmd
  | .versionMinMacosx       comm => comm.cmd
  | .versionMinIphoneos     comm => comm.cmd
  | .functionStarts         comm => comm.cmd
  | .dyldEnvironment        comm => comm.cmd
  | .main                   comm => comm.cmd
  | .dataInCode             comm => comm.cmd
  | .sourceVersion          comm => comm.cmd
  | .dylibCodeSignDrs       comm => comm.cmd
  | .linkerOption           comm => comm.cmd
  | .linkerOptimizationHint comm => comm.cmd
  | .unimplemented          comm => comm.cmd

/-- One dispatcher arm: `let comm = bytes.pread_with::<S>(0, le)?; Ok((Ctor(comm), size))`.
A short read is the scroll decode error carried through `?`. -/
def decodeArm {α : Type} (rd : List Nat → Endian → Option α) (ctor : α → CommandVariant)
    (bytes : List Nat) (e : Endian) (size : Nat) : MachResult (CommandVariant × Nat) :=
  match rd bytes e with
  | some comm => .ok (ctor comm, size)
  | none => .error .decode

/-- Model of `CommandVariant::try_from_ctx` (src/mach/load_command.rs:1124-1185): read the 8-byte
header, reject a declared size larger than the remaining buffer as Malformed, then
dispatch on the discriminant; unknown discriminants decode as `unimplemented`.
`size` is inlined as `lc.cmdsize` (the Rust binds `let size = lc.cmdsize as usize`). -/
def CommandVariant.tryFromCtx (bytes : List Nat) (e : Endian) : MachResult (CommandVariant × Nat) :=
  match LoadCommandHeader.read bytes e with
  | none => .error .decode
  | some lc =>
    if lc.cmdsize > bytes.length then
      .error (.malformed (cmd_to_str lc.cmd) lc.cmdsize bytes.length)
    else
      match lc.cmd with
      | 0x1        => decodeArm SegmentCommand32.read .segment32 bytes e lc.cmdsize
      | 0x19       => decodeArm SegmentCommand64.read .segment64 bytes e lc.cmdsize
      | 0xb        => decodeArm DysymtabCommand.read .dysymtab bytes e lc.cmdsize
      | 0xe        => decodeArm DylinkerCommand.read .loadDylinker bytes e lc.cmdsize
      | 0xf        => decodeArm DylinkerCommand.read .idDylinker bytes e lc.cmdsize
      | 0x1b       => decodeArm UuidCommand.read .uuid bytes e lc.cmdsize
      | 0x2        => decodeArm SymtabCommand.read .symtab bytes e lc.cmdsize
      | 0x3        => decodeArm SymsegCommand.read .symseg bytes e lc.cmdsize
      | 0x4        => decodeArm ThreadCommand.read .thread bytes e lc.cmdsize
      | 0x5        => decodeArm ThreadCommand.read .unixthread bytes e lc.cmdsize
      | 0x6        => decodeArm FvmlibCommand.read .loadFvmlib bytes e lc.cmdsize
      | 0x7        => decodeArm FvmlibCommand.read .idFvmlib bytes e lc.cmdsize
      | 0x8        => decodeArm IdentCommand.read .ident bytes e lc.cmdsize
      | 0x9        => decodeArm FvmfileCommand.read .fvmfile bytes e lc.cmdsize
      | 0xa        => decodeArm LoadCommandHeader.read .prepage bytes e lc.cmdsize
      | 0xc        => decodeArm DylibCommand.read .loadDylib bytes e lc.cmdsize
      | 0xd        => decodeArm DylibCommand.read .idDylib bytes e lc.cmdsize
      | 0x10       => decodeArm PreboundDylibCommand.read .preboundDylib bytes e lc.cmdsize
      | 0x11       => decodeArm RoutinesCommand32.read .routines32 bytes e lc.cmdsize
      | 0x1a       => decodeArm RoutinesCommand64.read .routines64 bytes e lc.cmdsize
      | 0x12       => decodeArm SubFrameworkCommand.read .subFramework bytes e lc.cmdsize
      | 0x13       => decodeArm SubUmbrellaCommand.read .subUmbrella bytes e lc.cmdsize
      | 0x14       => decodeArm SubClientCommand.read .subClient bytes e lc.cmdsize
      | 0x15       => decodeArm SubLibraryCommand.read .subLibrary bytes e lc.cmdsize
      | 0x16       => decodeArm TwolevelHintsCommand.read .twolevelHints bytes e lc.cmdsize
      | 0x17       => decodeArm PrebindCksumCommand.read .prebindCksum bytes e lc.cmdsize
      | 0x80000018 => decodeArm DylibCommand.read .loadWeakDylib bytes e lc.cmdsize
      | 0x8000001c => decodeArm RpathCommand.read .rpath bytes e lc.cmdsize
      | 0x1d       => decodeArm LinkeditDataCommand.read .codeSignature bytes e lc.cmdsize
      | 0x1e       => decodeArm LinkeditDataCommand.read .segmentSplitInfo bytes e lc.cmdsize
      | 0x8000001f => decodeArm DylibCommand.read .reexportDylib bytes e lc.cmdsize
      | 0x20       => decodeArm DylibCommand.read .lazyLoadDylib bytes e lc.cmdsize
      | 0x21       => decodeArm EncryptionInfoCommand32.read .encryptionInfo32 bytes e lc.cmdsize
      | 0x2c       => decodeArm EncryptionInfoCommand64.read .encryptionInfo64 bytes e lc.cmdsize
      | 0x22       => decodeArm DyldInfoCommand.read .dyldInfo bytes e lc.cmdsize
      | 0x80000022 => decodeArm DyldInfoCommand.read .dyldInfoOnly bytes e lc.cmdsize
      | 0x80000023 => decodeArm DylibCommand.read .loadUpwardDylib bytes e lc.cmdsize
      | 0x24       => decodeArm VersionMinCommand.read .versionMinMacosx bytes e lc.cmdsize
      | 0x25       => decodeArm VersionMinCommand.read .versionMinIphoneos bytes e lc.cmdsize
      | 0x26       => decodeArm LinkeditDataCommand.read .functionStarts bytes e lc.cmdsize
      | 0x27       => decodeArm DylinkerCommand.read .dyldEnvironment bytes e lc.cmdsize
      | 0x80000028 => decodeArm EntryPointCommand.read .main bytes e lc.cmdsize
      | 0x29       => decodeArm LinkeditDataCommand.read .dataInCode bytes e lc.cmdsize
      | 0x2a       => decodeArm SourceVersionCommand.read .sourceVersion bytes e lc.cmdsize
      | 0x2b       => decodeArm LinkeditDataCommand.read .dylibCodeSignDrs bytes e lc.cmdsize
      | 0x2d       => decodeArm LinkeditDataCommand.read .linkerOption bytes e lc.cmdsize
      | 0x2e       => decodeArm LinkeditDataCommand.read .linkerOptimizationHint bytes e lc.cmdsize
      | _ => .ok (.unimplemented lc, lc.cmdsize)

/-- Model of `LoadCommand` (src/mach/load_command.rs:1298-1305): a decoded record plus the
absolute offset where it begins. -/
structure LoadCommand where
  offset : Nat
  command : CommandVariant
deriving DecidableEq

/-- Model of `LoadCommand::parse` (src/mach/load_command.rs:1307-1316): decode one command
at `offset` via `bytes.pread_with::<CommandVariant>(start, le)` (which hands the
dispatcher the slice from `start` on), then advance the cursor by the decoded
record's own reported size `command.cmdsize()`. Returns the positioned command
together with the updated cursor. -/
def LoadCommand.parse (bytes : List Nat) (offset : Nat) (e : Endian) :
    MachResult (LoadCommand × Nat) :=
  if bytes.length ≤ offset then .error (.badOffset offset)
  else
    match CommandVariant.tryFromCtx (bytes.drop offset) e with
    | .error err => .error err
    | .ok (command, _) =>
      .ok ({ offset := offset, command := command }, offset + command.cmdsize)

/-- Modelled from the spec: the load-command sequencer loop itself lives in
mach/mod.rs, which is not under src/. Per §4.2 it decodes one record per step at
the cursor (via `LoadCommand::parse`), advances by the record's own reported
size, and terminates after a caller-supplied count of load commands or on the
first decode error, which is surfaced. -/
def parseAll (bytes : List Nat) (offset : Nat) (e : Endian) : Nat → MachResult (List LoadCommand)
  | 0 => .ok []
  | n + 1 =>
    match LoadCommand.parse bytes offset e with
    | .error err => .error err
    | .ok (lc, off2) =>
      match parseAll bytes off2 e n with
      | .error err => .error err
      | .ok rest => .ok (lc :: rest)

/-- Model of `container::Container`: 32-bit (`Little`) or 64-bit (`Big`) container width. -/
inductive Container where
  | little
  | big
deriving DecidableEq

/-- Model of `container::Ctx`: the addressing context, a container width plus byte order. -/
structure Ctx where
  container : Container
  le : Endian
deriving DecidableEq

/-- Model of `Ctx::is_big`. -/
def Ctx.is_big (ctx : Ctx) : Bool :=
  match ctx.container with
  | .big => true
  | .little => false

/-- A Rust panic. Values of this type model aborts, not recoverable errors. -/
inductive RustPanic where
  | sliceIndexOutOfRange
deriving DecidableEq

/-- Rust slice indexing `&bytes[start..stop]`: yields the subslice when
`start ≤ stop ≤ bytes.len()` and panics otherwise. -/
def rustSlice (bytes : List Nat) (start stop : Nat) : Except RustPanic (List Nat) :=
  if start ≤ stop ∧ stop ≤ bytes.length then
    .ok ((bytes.drop start).take (stop - start))
  else
    .error .sliceIndexOutOfRange

/-- Generalized 32/64-bit segment command (`Segment` in src/mach/segment.rs:262-278). -/
structure Segment where
  cmd : Nat
  cmdsize : Nat
  segname : List Nat
  vmaddr : Nat
  vmsize : Nat
  fileoff : Nat
  filesize : Nat
  maxprot : Nat
  initprot : Nat
  nsects : Nat
  flags : Nat
  data : List Nat
  offset : Nat
  raw_data : List Nat
  ctx : Ctx
deriving DecidableEq

/-- Model of `Segment::from_32` (src/mach/segment.rs:399-419). The Rust code computes
`&bytes[segment.fileoff as usize..(segment.fileoff + segment.filesize) as usize]`
with no bounds check and no fallible return type: `fileoff + filesize` is a `u32`
addition that wraps in release builds (modelled by `% 2^32`), and the slice
panics when the resulting range is invalid or past the buffer end. The
`.error` branch of the result models that panic, not a recoverable error. -/
def Segment.from_32 (bytes : List Nat) (segment : SegmentCommand32) (offset : Nat)
    (ctx : Ctx) : Except RustPanic Segment :=
  match rustSlice bytes segment.fileoff ((segment.fileoff + segment.filesize) % 2 ^ 32) with
  | .error p => .error p
  | .ok data =>
    .ok { cmd := segment.cmd
          cmdsize := segment.cmdsize
          segname := segment.segname
          vmaddr := segment.vmaddr
          vmsize := segment.vmsize
          fileoff := segment.fileoff
          filesize := segment.filesize
          maxprot := segment.maxprot
          initprot := segment.initprot
          nsects := segment.nsects
          flags := segment.flags
          data := data
          offset := offset
          raw_data := bytes
          ctx := ctx }

/-- Model of `Segment::from_64` (src/mach/segment.rs:420-440): same shape as `from_32`,
with the `u64` addition `fileoff + filesize` wrapping at `2^64`. -/
def Segment.from_64 (bytes : List Nat) (segment : SegmentCommand64) (offset : Nat)
    (ctx : Ctx) : Except RustPanic Segment :=
  match rustSlice bytes segment.fileoff ((segment.fileoff + segment.filesize) % 2 ^ 64) with
  | .error p => .error p
  | .ok data =>
    .ok { cmd := segment.cmd
          cmdsize := segment.cmdsize
          segname := segment.segname
          vmaddr := segment.vmaddr
          vmsize := segment.vmsize
          fileoff := segment.fileoff
          filesize := segment.filesize
          maxprot := segment.maxprot
          initprot := segment.initprot
          nsects := segment.nsects
          flags := segment.flags
          data := data
          offset := offset
          raw_data := bytes
          ctx := ctx }

/-- Model of `impl From<Segment> for SegmentCommand32` (src/mach/segment.rs:298-314):
each widened field is cast back with `as u32`, i.e. truncated mod `2^32`. -/
def SegmentCommand32.ofSegment (segment : Segment) : SegmentCommand32 where
  cmd := segment.cmd
  cmdsize := segment.cmdsize
  segname := segment.segname
  vmaddr := segment.vmaddr % 2 ^ 32
  vmsize := segment.vmsize % 2 ^ 32
  fileoff := segment.fileoff % 2 ^ 32
  filesize := segment.filesize % 2 ^ 32
  maxprot := segment.maxprot
  initprot := segment.initprot
  nsects := segment.nsects
  flags := segment.flags

/-- Model of `impl From<Segment> for SegmentCommand64` (src/mach/segment.rs:280-296):
the `as u64` casts on already-64-bit fields are the identity. -/
def SegmentCommand64.ofSegment (segment : Segment) : SegmentCommand64 where
  cmd := segment.cmd
  cmdsize := segment.cmdsize
  segname := segment.segname
  vmaddr := segment.vmaddr
  vmsize := segment.vmsize
  fileoff := segment.fileoff
  filesize := segment.filesize
  maxprot := segment.maxprot
  initprot := segment.initprot
  nsects := segment.nsects
  flags := segment.flags

/-- Generalized 32/64-bit section (`Section` in src/mach/segment.rs:36-57). -/
structure Section where
  sectname : List Nat
  segname : List Nat
  addr : Nat
  size : Nat
  offset : Nat
  align : Nat
  reloff : Nat
  nreloc : Nat
  flags : Nat
deriving DecidableEq

/-- Model of `impl From<Section32> for Section` (src/mach/segment.rs:135-149): widening
casts are the identity on the value; the reserved fields are dropped. -/
def Section.ofSection32 (s : Section32) : Section where
  sectname := s.sectname
  segname := s.segname
  addr := s.addr
  size := s.size
  offset := s.offset
  align := s.align
  reloff := s.reloff
  nreloc := s.nreloc
  flags := s.flags

/-- Model of `impl From<Section64> for Section` (src/mach/segment.rs:151-165). -/
def Section.ofSection64 (s : Section64) : Section where
  sectname := s.sectname
  segname := s.segname
  addr := s.addr
  size := s.size
  offset := s.offset
  align := s.align
  reloff := s.reloff
  nreloc := s.nreloc
  flags := s.flags

/-- Model of `impl From<Section> for Section32` (src/mach/segment.rs:101-117): `addr` and
`size` are cast back with `as u32` (mod `2^32`); every reserved field is set to 0. -/
def Section.toSection32 (s : Section) : Section32 where
  sectname := s.sectname
  segname := s.segname
  addr := s.addr % 2 ^ 32
  size := s.size % 2 ^ 32
  offset := s.offset
  align := s.align
  reloff := s.reloff
  nreloc := s.nreloc
  flags := s.flags
  reserved1 := 0
  reserved2 := 0

/-- Model of `impl From<Section> for Section64` (src/mach/segment.rs:82-99): the `as u64`
casts are the identity; every reserved field is set to 0. -/
def Section.toSection64 (s : Section) : Section64 where
  sectname := s.sectname
  segname := s.segname
  addr := s.addr
  size := s.size
  offset := s.offset
  align := s.align
  reloff := s.reloff
  nreloc := s.nreloc
  flags := s.flags
  reserved1 := 0
  reserved2 := 0
  reserved3 := 0

/-- Modelled from the spec: `RelocationInfo` lives in src/mach/relocation.rs,
which is not under src/. Per §4.4 and §6 a relocation is one fixed-size record
of the published Mach-O wire layout: an 8-byte entry holding a 32-bit address
field and a 32-bit packed info field, read under the declared byte order. -/
structure RelocationInfo where
  r_address : Nat
  r_info : Nat
deriving DecidableEq

/-- Modelled from the spec: decoding one fixed-size (8-byte) relocation record at
`off`; a scroll `gread_with` that fails when fewer than 8 bytes remain and reads
no byte past the buffer end. -/
def RelocationInfo.read (data : List Nat) (off : Nat) (e : Endian) : Option RelocationInfo :=
  if off + 8 ≤ data.length then some { r_address := u32 data off e, r_info := u32 data (off + 4) e }
  else none

/-- Model of `SIZEOF_RELOCATION_INFO`: width of one relocation record. -/
def SIZEOF_RELOCATION_INFO : Nat := 8

/-- Model of `RelocationIterator` (src/mach/segment.rs:13-19): private cursor state of the
relocation lazy sequence. -/
structure RelocationIterator where
  data : List Nat
  nrelocs : Nat
  offset : Nat
  count : Nat
  ctx : Endian
deriving DecidableEq

/-- Model of `RelocationIterator::next` (src/mach/segment.rs:21-34): yield nothing once
`count` reaches `nrelocs`; otherwise increment `count` and `gread` one record at
`offset`, advancing `offset` only on success (scroll's `gread_with` leaves the
offset unchanged when the read fails). Returns the yielded item (if any)
together with the successor state. -/
def RelocationIterator.next (it : RelocationIterator) :
    Option (MachResult RelocationInfo) × RelocationIterator :=
  if it.nrelocs ≤ it.count then (none, it)
  else
    match RelocationInfo.read it.data it.offset it.ctx with
    | some res =>
      (some (.ok res),
       { it with count := it.count + 1, offset := it.offset + SIZEOF_RELOCATION_INFO })
    | none => (some (.error .decode), { it with count := it.count + 1 })

/-- The state after `n` pulls of the lazy sequence. -/
def RelocationIterator.nextN (it : RelocationIterator) : Nat → RelocationIterator
  | 0 => it
  | n + 1 => (RelocationIterator.nextN it n).next.2

/-- Model of `Section::iter_relocations` (src/mach/segment.rs:69-79): start a relocation
lazy sequence over `data` at byte offset `reloff` with declared count `nreloc`. -/
def Section.iter_relocations (s : Section) (data : List Nat) (ctx : Ctx) : RelocationIterator where
  data := data
  nrelocs := s.nreloc
  offset := s.reloff
  count := 0
  ctx := ctx.le

/-! ### Generic decoding lemmas -/

theorem ok_pair {α β : Type} {x v : α} {y sz : β}
    (h : (Except.ok (x, y) : MachResult (α × β)) = .ok (v, sz)) : v = x ∧ sz = y := by
  injection h with h
  exact ⟨(congrArg Prod.fst h).symm, (congrArg Prod.snd h).symm⟩

theorem decodeArm_ok {α : Type} {rd : List Nat → Endian → Option α}
    {ctor : α → CommandVariant} {bytes : List Nat} {e : Endian} {size : Nat}
    {v : CommandVariant} {sz : Nat}
    (h : decodeArm rd ctor bytes e size = .ok (v, sz)) :
    ∃ comm, rd bytes e = some comm ∧ v = ctor comm ∧ sz = size := by
  unfold decodeArm at h
  cases hr : rd bytes e with
  | none => rw [hr] at h; exact Except.noConfusion h
  | some comm =>
    rw [hr] at h
    obtain ⟨hv, hsz⟩ := ok_pair h
    exact ⟨comm, rfl, hv, hsz⟩

theorem readU32_zero {bytes : List Nat} {e : Endian} (h : 8 ≤ bytes.length) :
    readU32 bytes 0 e = some (u32 bytes 0 e) := by
  rw [readU32, if_pos (by omega)]

theorem readU32_four {bytes : List Nat} {e : Endian} (h : 8 ≤ bytes.length) :
    readU32 bytes 4 e = some (u32 bytes 4 e) := by
  rw [readU32, if_pos (by omega)]

set_option maxHeartbeats 3200000 in
/-- C6: for every successfully decoded command variant, the discriminant returned
by `cmd()` and the size returned by `cmdsize()` equal the `cmd` and `cmdsize`
values of the 8-byte header embedded at the start of the record's bytes, read
with the same endianness — whether the variant is a concrete shape or the
`unimplemented` fallback. -/
theorem decodedAgreesWithHeader {bytes : List Nat} {e : Endian}
    {v : CommandVariant} {sz : Nat}
    (h : CommandVariant.tryFromCtx bytes e = .ok (v, sz)) :
    readU32 bytes 0 e = some v.cmd ∧ readU32 bytes 4 e = some v.cmdsize := by
  unfold CommandVariant.tryFromCtx at h
  split at h
  · exact Except.noConfusion h
  · rename_i lc hh
    obtain ⟨hl, hcmd, hcs⟩ := LoadCommandHeader_read_hdr hh
    split at h
    · exact Except.noConfusion h
    · split at h <;>
        first
        | (obtain ⟨hv, hsz⟩ := ok_pair h
           subst hv
           exact ⟨by simp only [CommandVariant.cmd]; rw [readU32_zero hl, hcmd],
                  by simp only [CommandVariant.cmdsize]; rw [readU32_four hl, hcs]⟩)
        | (obtain ⟨comm, hr, hv, hsz⟩ := decodeArm_ok h
           subst hv
           have hstruct : 8 ≤ bytes.length ∧ comm.cmd = u32 bytes 0 e ∧
               comm.cmdsize = u32 bytes 4 e := by
             first
             | exact LoadCommandHeader_read_hdr hr
             | exact SegmentCommand32_read_hdr hr
             | exact SegmentCommand64_read_hdr hr
             | exact FvmlibCommand_read_hdr hr
             | exact DylibCommand_read_hdr hr
             | exact SubFrameworkCommand_read_hdr hr
             | exact SubClientCommand_read_hdr hr
             | exact SubUmbrellaCommand_read_hdr hr
             | exact SubLibraryCommand_read_hdr hr
             | exact PreboundDylibCommand_read_hdr hr
             | exact DylinkerCommand_read_hdr hr
             | exact ThreadCommand_read_hdr hr
             | exact RoutinesCommand32_read_hdr hr
             | exact RoutinesCommand64_read_hdr hr
             | exact SymtabCommand_read_hdr hr
             | exact DysymtabCommand_read_hdr hr
             | exact TwolevelHintsCommand_read_hdr hr
             | exact PrebindCksumCommand_read_hdr hr
             | exact UuidCommand_read_hdr hr
             | exact RpathCommand_read_hdr hr
             | exact LinkeditDataCommand_read_hdr hr
             | exact EncryptionInfoCommand32_read_hdr hr
             | exact EncryptionInfoCommand64_read_hdr hr
             | exact VersionMinCommand_read_hdr hr
             | exact DyldInfoCommand_read_hdr hr
             | exact SymsegCommand_read_hdr hr
             | exact IdentCommand_read_hdr hr
             | exact FvmfileCommand_read_hdr hr
             | exact EntryPointCommand_read_hdr hr
             | exact SourceVersionCommand_read_hdr hr
           obtain ⟨hl8, h0, h4⟩ := hstruct
           exact ⟨by simp only [CommandVariant.cmd]; rw [readU32_zero hl8, h0],
                  by simp only [CommandVariant.cmdsize]; rw [readU32_four hl8, h4]⟩)

set_option maxHeartbeats 3200000 in
/-- C7 (amended): the only size invariant the dispatcher enforces is the upper
bound — a successful decode's declared size never exceeds the remaining buffer
length. (No lower bound against the 8-byte header size is checked.) -/
theorem cmdsizeUpperBoundOnly {bytes : List Nat} {e : Endian}
    {v : CommandVariant} {sz : Nat}
    (h : CommandVariant.tryFromCtx bytes e = .ok (v, sz)) : sz ≤ bytes.length := by
  unfold CommandVariant.tryFromCtx at h
  split at h
  · exact Except.noConfusion h
  · split at h
    · exact Except.noConfusion h
    · split at h <;>
        first
        | (obtain ⟨hv, hsz⟩ := ok_pair h; omega)
        | (obtain ⟨comm, hr, hv, hsz⟩ := decodeArm_ok h; omega)

/-- C2: whenever the decoded 8-byte header declares a size larger than the bytes
remaining in the buffer, `CommandVariant.tryFromCtx` fails with the Malformed
error built from the offending discriminant (rendered through `cmd_to_str`), the
declared size, and the available space. -/
theorem oversizedCmdsizeMalformed (bytes : List Nat) (e : Endian)
    (lc : LoadCommandHeader)
    (hh : LoadCommandHeader.read bytes e = some lc)
    (hgt : bytes.length < lc.cmdsize) :
    CommandVariant.tryFromCtx bytes e =
      .error (.malformed (cmd_to_str lc.cmd) lc.cmdsize bytes.length) := by
  simp only [CommandVariant.tryFromCtx, hh]
  rw [if_pos hgt]

/-- C5: a record whose discriminant matches no known load-command kind decodes
successfully as `unimplemented`, retaining only the 8-byte header, and
`LoadCommand.parse` advances its cursor by exactly the header's declared size —
so a record placed immediately after it decodes in sequence exactly as it would
on its own. -/
theorem unknownCmdSkipsCorrectly (bytes : List Nat) (offset : Nat) (e : Endian)
    (lc : LoadCommandHeader)
    (hh : LoadCommandHeader.read (bytes.drop offset) e = some lc)
    (hunknown : isKnownCmd lc.cmd = false)
    (hfit : lc.cmdsize ≤ bytes.length - offset) :
    LoadCommand.parse bytes offset e =
      .ok ({ offset := offset, command := .unimplemented lc }, offset + lc.cmdsize)
    ∧ ∀ lc2 off2, LoadCommand.parse bytes (offset + lc.cmdsize) e = .ok (lc2, off2) →
        parseAll bytes offset e 2 =
          .ok [{ offset := offset, command := .unimplemented lc }, lc2] := by
  have hlen : 8 ≤ (bytes.drop offset).length := (LoadCommandHeader_read_hdr hh).1
  rw [List.length_drop] at hlen
  have hvariant : CommandVariant.tryFromCtx (bytes.drop offset) e =
      .ok (.unimplemented lc, lc.cmdsize) := by
    simp only [CommandVariant.tryFromCtx, hh]
    rw [if_neg (by rw [List.length_drop]; omega)]
    split <;>
      first
      | rfl
      | (rename_i hcmdeq; rw [hcmdeq] at hunknown; exact absurd hunknown (by decide))
  have hparse : LoadCommand.parse bytes offset e =
      .ok ({ offset := offset, command := .unimplemented lc }, offset + lc.cmdsize) := by
    unfold LoadCommand.parse
    rw [if_neg (by omega), hvariant]
    rfl
  refine ⟨hparse, ?_⟩
  intro lc2 off2 h2
  simp only [parseAll, hparse, h2]

/-! ### Segment and section round-trips, and the `from_32`/`from_64` slice -/

/-- C4: a generalized segment built by `Segment.from_32`, when construction
succeeds and no widened value exceeds 32-bit range, converts back through
`SegmentCommand32.ofSegment` to exactly the original record, field for field. -/
theorem segment32Roundtrip (bytes : List Nat) (seg : SegmentCommand32) (offset : Nat)
    (ctx : Ctx) (s : Segment)
    (hok : Segment.from_32 bytes seg offset ctx = .ok s)
    (hva : seg.vmaddr < 2 ^ 32) (hvs : seg.vmsize < 2 ^ 32)
    (hfo : seg.fileoff < 2 ^ 32) (hfs : seg.filesize < 2 ^ 32) :
    SegmentCommand32.ofSegment s = seg := by
  unfold Segment.from_32 at hok
  split at hok
  · exact Except.noConfusion hok
  · injection hok with hok
    subst hok
    obtain ⟨c, cs, sn, va, vs, fo, fsz, mp, ip, ns, fl⟩ := seg
    simp only at hva hvs hfo hfs
    show SegmentCommand32.mk c cs sn (va % 2 ^ 32) (vs % 2 ^ 32) (fo % 2 ^ 32) (fsz % 2 ^ 32)
        mp ip ns fl = SegmentCommand32.mk c cs sn va vs fo fsz mp ip ns fl
    rw [Nat.mod_eq_of_lt hva, Nat.mod_eq_of_lt hvs, Nat.mod_eq_of_lt hfo, Nat.mod_eq_of_lt hfs]

/-- C10: converting a width-specific section record to the generalized `Section`
and back preserves every named field but zeroes every reserved field of the
result, regardless of the original reserved values. -/
theorem sectionRoundtripZeroesReserved (s32 : Section32) (s64 : Section64)
    (ha : s32.addr < 2 ^ 32) (hs : s32.size < 2 ^ 32) :
    Section.toSection32 (Section.ofSection32 s32) =
      { s32 with reserved1 := 0, reserved2 := 0 }
    ∧ Section.toSection64 (Section.ofSection64 s64) =
      { s64 with reserved1 := 0, reserved2 := 0, reserved3 := 0 } := by
  obtain ⟨sn, sg, ad, sz, o, al, rl, nr, fl, r1, r2⟩ := s32
  obtain ⟨sn6, sg6, ad6, sz6, o6, al6, rl6, nr6, fl6, r16, r26, r36⟩ := s64
  simp only at ha hs
  constructor
  · show Section32.mk sn sg (ad % 2 ^ 32) (sz % 2 ^ 32) o al rl nr fl 0 0 =
        Section32.mk sn sg ad sz o al rl nr fl 0 0
    rw [Nat.mod_eq_of_lt ha, Nat.mod_eq_of_lt hs]
  · rfl

def ctxLittle32 : Ctx := { container := .little, le := .little }

def ctxLittle64 : Ctx := { container := .big, le := .little }

/-- A 32-bit segment record whose file range [0, 1) exceeds an empty buffer. -/
def c1seg32 : SegmentCommand32 :=
  { cmd := 0x1, cmdsize := 56, segname := List.replicate 16 0, vmaddr := 0, vmsize := 0,
    fileoff := 0, filesize := 1, maxprot := 0, initprot := 0, nsects := 0, flags := 0 }

/-- A 64-bit segment record whose `fileoff + filesize` wraps past `2^64`. -/
def c1seg64 : SegmentCommand64 :=
  { cmd := 0x19, cmdsize := 72, segname := List.replicate 16 0, vmaddr := 0, vmsize := 0,
    fileoff := 2 ^ 64 - 1, filesize := 2, maxprot := 0, initprot := 0, nsects := 0, flags := 0 }

/-- C1: `Segment::from_32` / `from_64` do not fail closed. On a segment record
whose file range exceeds the buffer (or whose `fileoff + filesize` wraps), the
unchecked slice `&bytes[fileoff..(fileoff + filesize) as usize]` panics — the
functions return `Segment`, not a `Result`, so no error path exists. The
`.error .sliceIndexOutOfRange` below is the model's encoding of that panic. -/
theorem segmentFromPanicsOnBadRange :
    Segment.from_32 [] c1seg32 0 ctxLittle32 = .error .sliceIndexOutOfRange
    ∧ Segment.from_64 [] c1seg64 0 ctxLittle64 = .error .sliceIndexOutOfRange := by
  decide

def c4bytes : List Nat := [10, 11, 12, 13]

def c4seg : SegmentCommand32 :=
  { cmd := 1, cmdsize := 56, segname := List.replicate 16 95, vmaddr := 100, vmsize := 200,
    fileoff := 1, filesize := 2, maxprot := 7, initprot := 3, nsects := 0, flags := 9 }

/-- The generalized segment `Segment.from_32` builds from `c4bytes` and `c4seg`. -/
def c4genSeg : Segment :=
  { cmd := 1, cmdsize := 56, segname := List.replicate 16 95, vmaddr := 100, vmsize := 200,
    fileoff := 1, filesize := 2, maxprot := 7, initprot := 3, nsects := 0, flags := 9,
    data := [11, 12], offset := 0, raw_data := c4bytes, ctx := ctxLittle32 }

theorem segment32Roundtrip_witness : SegmentCommand32.ofSegment c4genSeg = c4seg :=
  segment32Roundtrip c4bytes c4seg 0 ctxLittle32 c4genSeg (by decide) (by decide)
    (by decide) (by decide) (by decide)

def c10s32 : Section32 :=
  { sectname := List.replicate 16 1, segname := List.replicate 16 2, addr := 3, size := 4,
    offset := 5, align := 6, reloff := 7, nreloc := 8, flags := 9,
    reserved1 := 10, reserved2 := 11 }

def c10s64 : Section64 :=
  { sectname := List.replicate 16 1, segname := List.replicate 16 2, addr := 3, size := 4,
    offset := 5, align := 6, reloff := 7, nreloc := 8, flags := 9,
    reserved1 := 10, reserved2 := 11, reserved3 := 12 }

theorem sectionRoundtrip_witness :
    Section.toSection32 (Section.ofSection32 c10s32) =
      { c10s32 with reserved1 := 0, reserved2 := 0 }
    ∧ Section.toSection64 (Section.ofSection64 c10s64) =
      { c10s64 with reserved1 := 0, reserved2 := 0, reserved3 := 0 } :=
  sectionRoundtripZeroesReserved c10s32 c10s64 (by decide) (by decide)

/-! ### Relocation lazy-sequence lemmas -/

theorem next_done (data : List Nat) (nrelocs offset count : Nat) (e : Endian)
    (hge : nrelocs ≤ count) :
    RelocationIterator.next ⟨data, nrelocs, offset, count, e⟩ =
      (none, ⟨data, nrelocs, offset, count, e⟩) := by
  simp only [RelocationIterator.next]
  rw [if_pos hge]

theorem next_fail (data : List Nat) (nrelocs offset count : Nat) (e : Endian)
    (hfail : RelocationInfo.read data offset e = none) (hlt : count < nrelocs) :
    RelocationIterator.next ⟨data, nrelocs, offset, count, e⟩ =
      (some (.error .decode), ⟨data, nrelocs, offset, count + 1, e⟩) := by
  simp only [RelocationIterator.next]
  rw [if_neg (by omega), hfail]

theorem next_ok (data : List Nat) (nrelocs offset count : Nat) (e : Endian)
    (r : RelocationInfo)
    (hread : RelocationInfo.read data offset e = some r) (hlt : count < nrelocs) :
    RelocationIterator.next ⟨data, nrelocs, offset, count, e⟩ =
      (some (.ok r), ⟨data, nrelocs, offset + 8, count + 1, e⟩) := by
  simp only [RelocationIterator.next]
  rw [if_neg (by omega), hread]
  rfl

theorem nextN_stable (data : List Nat) (nrelocs offset count : Nat) (e : Endian)
    (hge : nrelocs ≤ count) :
    ∀ n, RelocationIterator.nextN ⟨data, nrelocs, offset, count, e⟩ n =
      ⟨data, nrelocs, offset, count, e⟩ := by
  intro n
  induction n with
  | zero => rfl
  | succ n ih =>
    simp only [RelocationIterator.nextN, ih]
    rw [next_done data nrelocs offset count e hge]

theorem nextN_add (it : RelocationIterator) (a b : Nat) :
    RelocationIterator.nextN it (a + b) =
      RelocationIterator.nextN (RelocationIterator.nextN it a) b := by
  induction b with
  | zero => rfl
  | succ b ih =>
    rw [← Nat.add_assoc]
    simp only [RelocationIterator.nextN, ih]

theorem nextN_fail (data : List Nat) (nrelocs offset count : Nat) (e : Endian)
    (hfail : RelocationInfo.read data offset e = none) :
    ∀ n, count + n ≤ nrelocs →
      RelocationIterator.nextN ⟨data, nrelocs, offset, count, e⟩ n =
        ⟨data, nrelocs, offset, count + n, e⟩ := by
  intro n
  induction n with
  | zero => intro _; rfl
  | succ n ih =>
    intro h
    simp only [RelocationIterator.nextN]
    rw [ih (by omega), next_fail data nrelocs offset (count + n) e hfail (by omega)]
    rfl

theorem nextN_ok (data : List Nat) (nrelocs reloff : Nat) (e : Endian)
    (hwf : ∀ i, i < nrelocs → (RelocationInfo.read data (reloff + 8 * i) e).isSome = true) :
    ∀ n, n ≤ nrelocs →
      RelocationIterator.nextN ⟨data, nrelocs, reloff, 0, e⟩ n =
        ⟨data, nrelocs, reloff + 8 * n, n, e⟩ := by
  intro n
  induction n with
  | zero => intro _; rfl
  | succ n ih =>
    intro h
    obtain ⟨r, hr⟩ := Option.isSome_iff_exists.mp (hwf n (by omega))
    simp only [RelocationIterator.nextN]
    rw [ih (by omega), next_ok data nrelocs (reloff + 8 * n) n e r hr (by omega),
      Nat.mul_succ, ← Nat.add_assoc]

/-- C3 (amended): once constructed by `iter_relocations`, the relocation lazy
sequence ends exactly when the declared count is exhausted, and not before: when
the decode at the (never advancing) cursor fails, every pull with fewer than
`nreloc` items consumed still yields that decode failure again — the failure is
retried, and only exhausting the declared count ends the sequence. -/
theorem relocIterRetriesUntilCount (sec : Section) (data : List Nat) (ctx : Ctx) (n : Nat)
    (hfail : RelocationInfo.read data sec.reloff ctx.le = none) :
    (((RelocationIterator.nextN (sec.iter_relocations data ctx) n).next).1 = none
        ↔ sec.nreloc ≤ n)
    ∧ (n < sec.nreloc →
        ((RelocationIterator.nextN (sec.iter_relocations data ctx) n).next).1 =
          some (.error .decode)) := by
  have hit : sec.iter_relocations data ctx = ⟨data, sec.nreloc, sec.reloff, 0, ctx.le⟩ := rfl
  rw [hit]
  by_cases hlt : n < sec.nreloc
  · rw [nextN_fail data sec.nreloc sec.reloff 0 ctx.le hfail n (by omega),
      next_fail data sec.nreloc sec.reloff (0 + n) ctx.le hfail (by omega)]
    exact ⟨⟨fun hc => Option.noConfusion hc, fun hc => absurd hc (by omega)⟩,
      fun _ => rfl⟩
  · obtain ⟨k, hk⟩ := Nat.le.dest (show sec.nreloc ≤ n by omega)
    rw [← hk, nextN_add,
      nextN_fail data sec.nreloc sec.reloff 0 ctx.le hfail sec.nreloc (by omega),
      nextN_stable data sec.nreloc sec.reloff (0 + sec.nreloc) ctx.le (by omega) k,
      next_done data sec.nreloc sec.reloff (0 + sec.nreloc) ctx.le (by omega)]
    exact ⟨⟨fun _ => by omega, fun _ => rfl⟩, fun hc => absurd hc (by omega)⟩

/-- C9: for a well-formed section — every record of the declared relocation
table decodes — the lazy sequence yields exactly the declared count `nreloc` of
relocation records and then ends; every pull past the declared count yields
nothing, no matter how much buffer remains past the table. -/
theorem relocIterYieldsDeclaredCount (sec : Section) (data : List Nat) (ctx : Ctx)
    (hwf : ∀ i, i < sec.nreloc →
      (RelocationInfo.read data (sec.reloff + 8 * i) ctx.le).isSome = true)
    (n : Nat) :
    (n < sec.nreloc → ∃ r, RelocationInfo.read data (sec.reloff + 8 * n) ctx.le = some r
        ∧ ((RelocationIterator.nextN (sec.iter_relocations data ctx) n).next).1 =
            some (.ok r))
    ∧ (sec.nreloc ≤ n →
        ((RelocationIterator.nextN (sec.iter_relocations data ctx) n).next).1 = none) := by
  have hit : sec.iter_relocations data ctx = ⟨data, sec.nreloc, sec.reloff, 0, ctx.le⟩ := rfl
  rw [hit]
  constructor
  · intro hlt
    obtain ⟨r, hr⟩ := Option.isSome_iff_exists.mp (hwf n hlt)
    refine ⟨r, hr, ?_⟩
    rw [nextN_ok data sec.nreloc sec.reloff ctx.le hwf n (by omega),
      next_ok data sec.nreloc (sec.reloff + 8 * n) n ctx.le r hr hlt]
  · intro hge
    obtain ⟨k, hk⟩ := Nat.le.dest hge
    rw [← hk, nextN_add,
      nextN_ok data sec.nreloc sec.reloff ctx.le hwf sec.nreloc (by omega),
      nextN_stable data sec.nreloc (sec.reloff + 8 * sec.nreloc) sec.nreloc ctx.le
        (by omega) k,
      next_done data sec.nreloc (sec.reloff + 8 * sec.nreloc) sec.nreloc ctx.le (by omega)]

/-! ### Concrete buffers: witnesses and counterexamples -/

/-- A 16-byte buffer whose first record declares size 200. -/
def c2buf : List Nat := [2, 0, 0, 0, 200, 0, 0, 0] ++ List.replicate 8 0

theorem oversizedCmdsizeMalformed_witness :
    CommandVariant.tryFromCtx c2buf Endian.little =
      .error (.malformed (cmd_to_str 2) 200 c2buf.length) :=
  oversizedCmdsizeMalformed c2buf .little ⟨2, 200⟩ (by decide) (by decide)

/-- An unknown record (discriminant 0x99, declared size 8) followed by a
well-formed symtab record. -/
def c5buf : List Nat :=
  [0x99, 0, 0, 0, 8, 0, 0, 0] ++ ([2, 0, 0, 0, 24, 0, 0, 0] ++ List.replicate 16 0)

theorem unknownCmdSkipsCorrectly_witness :
    LoadCommand.parse c5buf 0 Endian.little =
      .ok ({ offset := 0, command := .unimplemented ⟨0x99, 8⟩ }, 0 + 8) :=
  (unknownCmdSkipsCorrectly c5buf 0 .little ⟨0x99, 8⟩ (by decide) (by decide) (by decide)).1

/-- A well-formed 24-byte symtab record. -/
def c6buf : List Nat := [2, 0, 0, 0, 24, 0, 0, 0] ++ List.replicate 16 0

theorem decodedAgreesWithHeader_witness :
    readU32 c6buf 0 Endian.little = some ((CommandVariant.symtab ⟨2, 24, 0, 0, 0, 0⟩).cmd)
    ∧ readU32 c6buf 4 Endian.little =
        some ((CommandVariant.symtab ⟨2, 24, 0, 0, 0, 0⟩).cmdsize) :=
  @decodedAgreesWithHeader c6buf .little (.symtab ⟨2, 24, 0, 0, 0, 0⟩) 24 (by decide)

/-- An 8-byte record declaring size 0 (smaller than the 8-byte header) with an
unknown discriminant. -/
def c7buf : List Nat := [0x99, 0, 0, 0, 0, 0, 0, 0]

/-- C7 counterexample: a record whose declared size 0 is smaller than the 8-byte
header size decodes successfully (as `unimplemented`); the dispatcher does not
treat it as malformed. -/
theorem smallCmdsizeStillDecodes :
    CommandVariant.tryFromCtx c7buf Endian.little = .ok (.unimplemented ⟨0x99, 0⟩, 0)
    ∧ u32 c7buf 4 Endian.little < 8 := by
  decide

theorem cmdsizeUpperBoundOnly_witness : (0 : Nat) ≤ c7buf.length :=
  @cmdsizeUpperBoundOnly c7buf .little (.unimplemented ⟨0x99, 0⟩) 0 (by decide)

/-- A 64-bit segment record with declared size 152 (72-byte record plus one
80-byte section) followed by a 24-byte symtab record: 176 bytes in all. -/
def c8full : List Nat :=
  ([0x19, 0, 0, 0, 152, 0, 0, 0] ++ List.replicate 64 0)
    ++ List.replicate 80 0
    ++ ([2, 0, 0, 0, 24, 0, 0, 0] ++ List.replicate 16 0)

/-- The buffer `c8full` truncated to 100 bytes. -/
def c8trunc : List Nat := c8full.take 100

/-- C8 counterexample: the first decode of the truncated buffer fails as
Malformed reporting available space 100 — the full remaining buffer length,
including the 8-byte header — not 92. -/
theorem truncatedReportsFullRemainder_counterexample :
    CommandVariant.tryFromCtx c8trunc Endian.little =
      .error (.malformed (cmd_to_str 0x19) 152 100)
    ∧ (100 : Nat) ≠ 92 := by
  decide

/-- C8 (amended): truncating the 176-byte buffer to 100 bytes makes the first
decode fail as Malformed, reporting declared size 152 against available space
100 (the remaining buffer length including the 8-byte header). -/
theorem truncatedReportsFullRemainder :
    CommandVariant.tryFromCtx c8trunc Endian.little =
      .error (.malformed (cmd_to_str 0x19) 152 100) := by
  decide

/-- A section declaring two relocations at table offset 0. -/
def c3sec : Section :=
  { sectname := List.replicate 16 0, segname := List.replicate 16 0, addr := 0, size := 0,
    offset := 0, align := 0, reloff := 0, nreloc := 2, flags := 0 }

/-- C3 counterexample: over an empty buffer the first pull yields a decode
failure, and the very next pull yields the same failure again instead of
nothing — the failing element is not the final one and the decode is retried. -/
theorem relocIterSecondPullNotNone :
    ((c3sec.iter_relocations [] ctxLittle32).next).1 = some (.error .decode)
    ∧ ((((c3sec.iter_relocations [] ctxLittle32).next).2).next).1 =
        some (.error .decode) := by
  decide

theorem relocIterRetriesUntilCount_witness :
    ((RelocationIterator.nextN (c3sec.iter_relocations [] ctxLittle32) 1).next).1 =
      some (.error .decode) :=
  (relocIterRetriesUntilCount c3sec [] ctxLittle32 1 (by decide)).2 (by decide)

/-- A section declaring one relocation at table offset 0. -/
def c9sec : Section :=
  { sectname := List.replicate 16 0, segname := List.replicate 16 0, addr := 0, size := 0,
    offset := 0, align := 0, reloff := 0, nreloc := 1, flags := 0 }

/-- Eight zero bytes: exactly one decodable relocation record. -/
def c9data : List Nat := List.replicate 8 0

theorem relocIterYieldsDeclaredCount_witness :
    ((RelocationIterator.nextN (c9sec.iter_relocations c9data ctxLittle32) 1).next).1 =
      none :=
  (relocIterYieldsDeclaredCount c9sec c9data ctxLittle32 (by decide) 1).2 (by decide)

end Goblin
